import Mathlib

/-!
# go-piece: the ANSI emulator core

A shallow embedding of `buffer/buffer.go`, `parser/ansi.go` and
`parser/ansi_opcode.go`.

Conventions of the embedding.

* Go's `int` is `Int`.  The 64-bit range is modelled where the program can
  see it: `strconv.Atoi` saturates at the `int` range, and the arithmetic of
  the write path (`Cursor.Offset`, the `X++` of `PutChar`, the `y+1` of
  `NormalizeAndWrap`) is reduced to 64-bit two's complement (`intAt`), since a
  cursor row of any size is one `CUP` away.  The other `int` computations are
  left exact.
* A `byte` is a `Nat`; a Go `string` is the list of its bytes.
* `[]*Tile` is `List (Option Tile)`; a nil pointer is `none`.  No two slots of
  the slice ever share a pointer (`Tile` allocates per slot, `Insert` moves
  pointers), so the value model loses nothing.
* A run-time panic (index out of range, nil dereference, negative `make`) is
  the result `none`; every operation that can panic returns an `Option`.
* Loops are structural recursions on the number of iterations.
-/

namespace GoPiece

/-! ## Package calc -/

/-- Modelled from the spec: package `calc` is not in the source tree; `MinInt`
is the smaller of two ints. -/
def MinInt (a b : Int) : Int := if a < b then a else b

/-- Modelled from the spec: package `calc` is not in the source tree; `MaxInt`
is the larger of two ints. -/
def MaxInt (a b : Int) : Int := if a > b then a else b

/-! ## Go's int -/

/-- The 64-bit two's complement value of an exact integer: what a Go `int`
expression holds whose exact value is `i`. -/
def wrapInt (i : Int) : Int :=
  (i + 9223372036854775808) % 18446744073709551616 - 9223372036854775808

/-- The value of an `int` expression evaluated for a buffer of width `w`, `i`
being its exact value: `i` wrapped to 64 bits.  A width outside the `int`
range belongs to no Go buffer; there the arithmetic is left exact, so that a
statement over every `Int` width says what it says over every Go width. -/
def intAt (w i : Int) : Int :=
  if -9223372036854775808 ≤ w ∧ w < 9223372036854775808 then wrapInt i else i

/-! ## Package buffer: Tile -/

/-- Modelled from the spec: `buffer/tile.go` is not in the source tree.  A tile
is one character with its rendition; `Char` is a byte (`PutChar` takes a
`byte` and stores it through the cursor template). -/
structure Tile where
  Char : Nat
  Color : Int
  Background : Int
  Attrib : Nat
  Font : Int
deriving DecidableEq, Repr

/-- Modelled from the spec: default foreground, palette index 7. -/
def TILE_DEFAULT_COLOR : Int := 7

/-- Modelled from the spec: default background, palette index 0. -/
def TILE_DEFAULT_BACKGROUND : Int := 0

/-- Modelled from the spec: the attribute flags of `buffer/tile.go` form a
bit-set, listed in the spec in this order; each is a distinct single bit. -/
def ATTRIB_BOLD : Nat := 1
/-- Modelled from the spec: attribute bit, see `ATTRIB_BOLD`. -/
def ATTRIB_FAINT : Nat := 2
/-- Modelled from the spec: attribute bit, see `ATTRIB_BOLD`. -/
def ATTRIB_ITALICS : Nat := 4
/-- Modelled from the spec: attribute bit, see `ATTRIB_BOLD`. -/
def ATTRIB_UNDERLINE : Nat := 8
/-- Modelled from the spec: attribute bit, see `ATTRIB_BOLD`. -/
def ATTRIB_UNDERLINE_DOUBLE : Nat := 16
/-- Modelled from the spec: attribute bit, see `ATTRIB_BOLD`. -/
def ATTRIB_BLINK : Nat := 32
/-- Modelled from the spec: attribute bit, see `ATTRIB_BOLD`. -/
def ATTRIB_NEGATIVE : Nat := 64
/-- Modelled from the spec: attribute bit, see `ATTRIB_BOLD`. -/
def ATTRIB_CONCEAL : Nat := 128
/-- Modelled from the spec: attribute bit, see `ATTRIB_BOLD`. -/
def ATTRIB_CROSS_OUT : Nat := 256
/-- Modelled from the spec: attribute bit, see `ATTRIB_BOLD`. -/
def ATTRIB_GOTHIC : Nat := 512
/-- Modelled from the spec: attribute bit, see `ATTRIB_BOLD`. -/
def ATTRIB_FRAME : Nat := 1024
/-- Modelled from the spec: attribute bit, see `ATTRIB_BOLD`. -/
def ATTRIB_ENCIRCLE : Nat := 2048
/-- Modelled from the spec: attribute bit, see `ATTRIB_BOLD`. -/
def ATTRIB_OVERLINE : Nat := 4096
/-- Modelled from the spec: attribute bit, see `ATTRIB_BOLD`. -/
def ATTRIB_IDEOGRAM_UNDERLINE : Nat := 8192
/-- Modelled from the spec: attribute bit, see `ATTRIB_BOLD`. -/
def ATTRIB_IDEOGRAM_UNDERLINE_DOUBLE : Nat := 16384
/-- Modelled from the spec: attribute bit, see `ATTRIB_BOLD`. -/
def ATTRIB_IDEOGRAM_OVERLINE : Nat := 32768
/-- Modelled from the spec: attribute bit, see `ATTRIB_BOLD`. -/
def ATTRIB_IDEOGRAM_OVERLINE_DOUBLE : Nat := 65536
/-- Modelled from the spec: attribute bit, see `ATTRIB_BOLD`. -/
def ATTRIB_IDEOGRAM_STRESS_MARKING : Nat := 131072

/-- Go's `a |= f`. -/
def setFlag (a f : Nat) : Nat := a ||| f

/-- Go's `a &^= f` (and-not): the bits of `a` that are not in `f`. -/
def clearFlag (a f : Nat) : Nat := a ^^^ (a &&& f)

/-- Modelled from the spec: `NewTile` gives the default char (space), default
foreground 7, default background 0, attrib 0, font 0. -/
def NewTile : Tile :=
  { Char := 32, Color := TILE_DEFAULT_COLOR, Background := TILE_DEFAULT_BACKGROUND,
    Attrib := 0, Font := 0 }

/-- Modelled from the spec: `Tile.Update` copies the rendition (color,
background, attrib, font) of the template.  `PutChar` stores the character
in the cursor template and hands the tile nothing but that template, and the
spec's putChar leaves the tile holding that character, so the character
travels with the template as well. -/
def Tile.Update (_t o : Tile) : Tile :=
  { Char := o.Char, Color := o.Color, Background := o.Background,
    Attrib := o.Attrib, Font := o.Font }

/-! ## Package buffer: Cursor -/

/-- Modelled from the spec: `buffer/cursor.go` is not in the source tree.  The
cursor is a position with an embedded template tile. -/
structure Cursor where
  X : Int
  Y : Int
  Tile : Tile
deriving DecidableEq, Repr

/-- Modelled from the spec: `NewCursor(x, y)` with a fresh template tile. -/
def NewCursor (x y : Int) : Cursor := { X := x, Y := y, Tile := NewTile }

/-- Modelled from the spec: every cursor move clamps `x`, `y` to `≥ 0`
afterwards. -/
def Cursor.clamp (c : Cursor) : Cursor :=
  { c with X := MaxInt 0 c.X, Y := MaxInt 0 c.Y }

/-- Modelled from the spec: `up(n)`: `y ← max(0, y−n)`. -/
def Cursor.Up (c : Cursor) (n : Int) : Cursor :=
  Cursor.clamp { c with Y := MaxInt 0 (c.Y - n) }

/-- Modelled from the spec: `down(n)`: `y ← y+n`. -/
def Cursor.Down (c : Cursor) (n : Int) : Cursor :=
  Cursor.clamp { c with Y := c.Y + n }

/-- Modelled from the spec: `left(n)`: `x ← max(0, x−n)`. -/
def Cursor.Left (c : Cursor) (n : Int) : Cursor :=
  Cursor.clamp { c with X := MaxInt 0 (c.X - n) }

/-- Modelled from the spec: `right(n)`: `x ← x+n`. -/
def Cursor.Right (c : Cursor) (n : Int) : Cursor :=
  Cursor.clamp { c with X := c.X + n }

/-- Modelled from the spec: `goto(x, y)`: absolute move, clamped to
non-negative. -/
def Cursor.Goto (c : Cursor) (x y : Int) : Cursor :=
  Cursor.clamp { c with X := x, Y := y }

/-- Modelled from the spec: `offset(width)` is `y·width + x`, an `int`
expression: it wraps at 64 bits. -/
def Cursor.Offset (c : Cursor) (w : Int) : Int := intAt w (c.Y * w + c.X)

/-- Modelled from the spec: `normalize(w, h)` clamps `x` into `[0, w)` and `y`
into `[0, h)`. -/
def Cursor.Normalize (c : Cursor) (w h : Int) : Cursor :=
  { c with X := MaxInt 0 (MinInt c.X (w - 1)), Y := MaxInt 0 (MinInt c.Y (h - 1)) }

/-- Modelled from the spec: `normalizeAndWrap(w)`: if `x ≥ w`, set `x ← 0`,
`y ← y+1`; the `int` sum wraps at 64 bits. -/
def Cursor.NormalizeAndWrap (c : Cursor) (w : Int) : Cursor :=
  Cursor.clamp (if c.X ≥ w then { c with X := 0, Y := intAt w (c.Y + 1) } else c)

/-- Modelled from the spec: `resetAttrib()` clears all rendition attributes and
restores the default color, background and font. -/
def Cursor.ResetAttrib (c : Cursor) : Cursor :=
  { c with Tile := { c.Tile with Color := TILE_DEFAULT_COLOR,
                                 Background := TILE_DEFAULT_BACKGROUND,
                                 Attrib := 0, Font := 0 } }

/-! ## Package buffer: Buffer (buffer/buffer.go) -/

/-- The struct `Buffer` of buffer.go. -/
structure Buffer where
  Width : Int
  Height : Int
  Cursor : Cursor
  Tiles : List (Option Tile)
  maxWidth : Int
  maxHeight : Int
deriving DecidableEq, Repr

/-- The length `len(b.Tiles)` as an int. -/
def Buffer.lenTiles (b : Buffer) : Int := (b.Tiles.length : Int)

/-- The function `New(w, h)`: `make([]*Tile, w*h)` panics for a negative
length; the call of `Resize` only returns an error that is dropped. -/
def New (w h : Int) : Option Buffer :=
  if w * h < 0 then none
  else some { Width := w, Height := h, Cursor := NewCursor 0 0,
              Tiles := List.replicate (w * h).toNat none,
              maxWidth := 0, maxHeight := 0 }

/-- The assignment `b.Tiles[o] = nil`, which panics outside `0 ≤ o < len`. -/
def setNil (ts : List (Option Tile)) (o : Int) : Option (List (Option Tile)) :=
  if 0 ≤ o ∧ o < (ts.length : Int) then some (ts.set o.toNat none) else none

/-- The method `Clear`: `for o := range b.Tiles { b.Tiles[o] = nil }`. -/
def Buffer.Clear (b : Buffer) : Buffer :=
  { b with Tiles := b.Tiles.map (fun _ => none) }

/-- The method `ClearAt`: guarded by `o < len(b.Tiles)` only. -/
def Buffer.ClearAt (b : Buffer) (o : Int) : Option Buffer :=
  if o < b.lenTiles then
    (setNil b.Tiles o).map (fun ts => { b with Tiles := ts })
  else some b

/-- The loop of `ClearFrom`, `n` iterations left, loop variable `o`. -/
def ClearFromLoop (ts : List (Option Tile)) (o : Int) : Nat → Option (List (Option Tile))
  | 0 => some ts
  | n + 1 => (setNil ts o).bind (fun ts1 => ClearFromLoop ts1 (o + 1) n)

/-- The method `ClearFrom`: `for l := len(b.Tiles); o < l; o++`. -/
def Buffer.ClearFrom (b : Buffer) (o : Int) : Option Buffer :=
  (ClearFromLoop b.Tiles o (b.lenTiles - o).toNat).map (fun ts => { b with Tiles := ts })

/-- The loop of `ClearTo` with loop variable `o = k`, running while `o >= 0`. -/
def ClearToLoop (ts : List (Option Tile)) : Nat → Option (List (Option Tile))
  | 0 => setNil ts 0
  | k + 1 => (setNil ts ((k : Int) + 1)).bind (fun ts1 => ClearToLoop ts1 k)

/-- The method `ClearTo`:
`for o = calc.MinInt(o, len(b.Tiles)); o >= 0; o-- { b.Tiles[o] = nil }`. -/
def Buffer.ClearTo (b : Buffer) (o : Int) : Option Buffer :=
  let o1 := MinInt o b.lenTiles
  if o1 ≥ 0 then
    (ClearToLoop b.Tiles o1.toNat).map (fun ts => { b with Tiles := ts })
  else some b

/-- The method `Insert`: `make([]*Tile, n)` panics for `n < 0`, the slice
expressions `b.Tiles[:o]` and `b.Tiles[o:]` for `o` outside `0..len`
(capacity beyond the length is not modelled). -/
def Buffer.Insert (b : Buffer) (o n : Int) : Option Buffer :=
  if n < 0 ∨ o < 0 ∨ o > b.lenTiles then none
  else some { b with Tiles := b.Tiles.take o.toNat ++
                (List.replicate n.toNat none ++ b.Tiles.drop o.toNat) }

/-- The method `Expand`: append `o-l+1` nil slots when `l <= o`. -/
def Buffer.Expand (b : Buffer) (o : Int) : Buffer :=
  let l := b.lenTiles
  if l ≤ o then { b with Tiles := b.Tiles ++ List.replicate (o - l + 1).toNat none }
  else b

/-- The method `Len`: `b.Width * b.Height`. -/
def Buffer.Len (b : Buffer) : Int := b.Width * b.Height

/-- The method `Size`: Go's `/` truncates toward zero. -/
def Buffer.Size (b : Buffer) : Int × Int :=
  let l := b.Len
  let w := b.Width
  if w > 0 then (w, 1 + Int.tdiv (l - 1) w) else (w, 0)

/-- The method `Normalize`. -/
def Buffer.Normalize (b : Buffer) : Buffer :=
  { b with Cursor := b.Cursor.Normalize b.Size.1 b.Size.2 }

/-- The method `SizeMax`. -/
def Buffer.SizeMax (b : Buffer) : Int × Int := (b.maxWidth, b.maxHeight)

/-- The method `Tile`: the buffer after the call and the returned pointer
(`none` is nil); `b.Tiles[o]` panics for a negative `o`. -/
def Buffer.Tile (b : Buffer) (o : Int) : Option (Buffer × Option Tile) :=
  if o ≥ b.lenTiles then some (b, none)
  else if o < 0 then none
  else
    match b.Tiles.getD o.toNat none with
    | none => some ({ b with Tiles := b.Tiles.set o.toNat (some NewTile) }, some NewTile)
    | some t => some (b, some t)

/-- The method `PutChar`; `t.Update` on a nil `t` panics.  The offset `o` and
`b.Cursor.X++` are `int` arithmetic and wrap at 64 bits. -/
def Buffer.PutChar (b : Buffer) (c : Nat) : Option Buffer :=
  let b1 : Buffer := { b with Cursor := { b.Cursor with Tile := { b.Cursor.Tile with Char := c } } }
  let o := b1.Cursor.Offset b1.Width
  match (b1.Expand o).Tile o with
  | none => none
  | some (_, none) => none
  | some (b2, some t) =>
    let b3 : Buffer := { b2 with Tiles := b2.Tiles.set o.toNat (some (t.Update b2.Cursor.Tile)) }
    let b4 : Buffer :=
      { b3 with Cursor := { b3.Cursor with X := intAt b3.Width (b3.Cursor.X + 1) } }
    let b5 : Buffer := { b4 with Cursor := b4.Cursor.NormalizeAndWrap b4.Width }
    let b6 : Buffer := { b5 with maxWidth := MaxInt b5.maxWidth b5.Cursor.X }
    some { b6 with maxHeight := MaxInt b6.maxHeight b6.Cursor.Y }

/-! ## Package parser: the sequence accumulator (parser/ansi.go) -/

/-- The struct `ANSISequence`: the parameter strings `s` and the bytes `b` of
the parameter being read. -/
structure ANSISequence where
  s : List (List Nat)
  b : List Nat
deriving DecidableEq, Repr

/-- The function `NewANSISequence`. -/
def NewANSISequence : ANSISequence := { s := [], b := [] }

/-- The method `Buffer` of the sequence: append a byte. -/
def ANSISequence.Buffer (q : ANSISequence) (b : Nat) : ANSISequence :=
  { q with b := q.b ++ [b] }

/-- The method `Flush`. -/
def ANSISequence.Flush (q : ANSISequence) : ANSISequence :=
  { s := q.s ++ [q.b], b := [] }

/-- The method `Len`. -/
def ANSISequence.Len (q : ANSISequence) : ℤ := (q.s.length : Int)

/-- The method `Reset`. -/
def ANSISequence.Reset (_q : ANSISequence) : ANSISequence := { s := [], b := [] }

/-- The error values of package strconv. -/
inductive NumError where
  | ErrSyntax
  | ErrRange
deriving DecidableEq, Repr

/-- The loop of Go's `strconv.ParseUint(s, 10, 64)` with the value `n` read so
far: a byte that is not a decimal digit ends it with `(0, ErrSyntax)`; when
`n*10` (test `n >= cutoff`, `cutoff = maxUint64/10 + 1`) or `n*10 + d`
overflows 64 bits it ends at once with `(maxUint64, ErrRange)`, the bytes
after that digit unread. -/
def parseDigits : List Nat → Nat → Nat × Option NumError
  | [], n => (n, none)
  | c :: cs, n =>
    if 48 ≤ c ∧ c ≤ 57 then
      if n ≥ 1844674407370955162 then (18446744073709551615, some NumError.ErrRange)
      else if n * 10 + (c - 48) > 18446744073709551615 then
        (18446744073709551615, some NumError.ErrRange)
      else parseDigits cs (n * 10 + (c - 48))
    else (0, some NumError.ErrSyntax)

/-- Go's `strconv.Atoi` on a 64-bit platform (`ParseInt(s, 10, 0)`; the fast
path for short strings returns the same), as the pair of the returned int and
whether the returned error is nil: an optional sign, then one or more decimal
digits; on a syntax error the int is 0, on a range error it is the nearest
int (`2^63-1` or `-2^63`). -/
def Atoi (s : List Nat) : Int × Bool :=
  match s with
  | [] => (0, false)
  | c :: cs =>
    let body := if c = 43 ∨ c = 45 then cs else s
    if body = [] then (0, false)
    else
      match parseDigits body 0 with
      | (_, some NumError.ErrSyntax) => (0, false)
      | (un, _) =>
        if c = 45 then
          (if un > 9223372036854775808 then (-9223372036854775808, false)
           else (-(un : Int), true))
        else
          (if un ≥ 9223372036854775808 then (9223372036854775807, false)
           else ((un : Int), true))

/-- The method `Int`: `if n < s.Len() { i, _ = strconv.Atoi(s.s[n]) }`; the
index expression panics for a negative `n`. -/
def ANSISequence.Int (q : ANSISequence) (n : ℤ) : Option ℤ :=
  if n < q.Len then
    (if n < 0 then none else some (Atoi (q.s.getD n.toNat [])).1)
  else some 0

/-- The method `Ints`: the parameters that `Atoi` accepts, in order. -/
def ANSISequence.Ints (q : ANSISequence) : List ℤ :=
  q.s.filterMap (fun j => if (Atoi j).2 then some (Atoi j).1 else none)

/-! ## Package parser: the opcode handlers (parser/ansi_opcode.go)

A handler receives the sequence and acts on `p.buffer`; every handler returns
the nil error, so a handler is a function to `Option Buffer`. -/

/-- The handler `parseCHA`. -/
def parseCHA (s : ANSISequence) (b : Buffer) : Option Buffer :=
  (if s.Len > 0 then (s.Int 0).map (fun i => i - 1) else some 0).map
    (fun x => { b with Cursor := { b.Cursor with X := MaxInt 0 x } })

/-- The handler `parseCNL`. -/
def parseCNL (s : ANSISequence) (b : Buffer) : Option Buffer :=
  (if s.Len > 0 then s.Int 0 else some 1).map
    (fun y => { b with Cursor := Cursor.Down { b.Cursor with X := 0 } y })

/-- The handler `parseCPL` (not registered in the opcode table). -/
def parseCPL (s : ANSISequence) (b : Buffer) : Option Buffer :=
  (if s.Len > 0 then s.Int 0 else some 1).map
    (fun y => { b with Cursor := Cursor.Up { b.Cursor with X := 0 } y })

/-- The handler `parseCUB`. -/
def parseCUB (s : ANSISequence) (b : Buffer) : Option Buffer :=
  (if s.Len > 0 then s.Int 0 else some 1).map
    (fun x => { b with Cursor := b.Cursor.Left x })

/-- The handler `parseCUD`. -/
def parseCUD (s : ANSISequence) (b : Buffer) : Option Buffer :=
  (if s.Len > 0 then s.Int 0 else some 1).map
    (fun y => { b with Cursor := b.Cursor.Down y })

/-- The handler `parseCUF`. -/
def parseCUF (s : ANSISequence) (b : Buffer) : Option Buffer :=
  (if s.Len > 0 then s.Int 0 else some 1).map
    (fun x => { b with Cursor := b.Cursor.Right x })

/-- The handler `parseCUP`: `switch s.Len()` with the cases 2 and 1. -/
def parseCUP (s : ANSISequence) (b : Buffer) : Option Buffer :=
  if s.Len = 2 then
    (s.Int 0).bind (fun i0 => (s.Int 1).map (fun i1 =>
      { b with Cursor := b.Cursor.Goto (i1 - 1) (i0 - 1) }))
  else if s.Len = 1 then
    (s.Int 0).map (fun i0 => { b with Cursor := b.Cursor.Goto 0 (i0 - 1) })
  else some { b with Cursor := b.Cursor.Goto 0 0 }

/-- The handler `parseCUU`: the body is a bare `return`. -/
def parseCUU (_s : ANSISequence) (b : Buffer) : Option Buffer := some b

/-- The handler `parseED`. -/
def parseED (s : ANSISequence) (b : Buffer) : Option Buffer :=
  (s.Int 0).bind (fun i =>
    if i = 0 then b.ClearFrom (b.Cursor.Offset b.Width)
    else if i = 1 then b.ClearTo (b.Cursor.Offset b.Width)
    else some b.Clear)

/-- The loop `for i = o; i < e; i++ { p.buffer.ClearAt(i) }` of `parseEL`,
`n` iterations left. -/
def parseELLoop (b : Buffer) (i : Int) : Nat → Option Buffer
  | 0 => some b
  | n + 1 => (b.ClearAt i).bind (fun b1 => parseELLoop b1 (i + 1) n)

/-- The handler `parseEL`: `o` and `e` stay 0 for a mode other than 0, 1, 2. -/
def parseEL (s : ANSISequence) (b : Buffer) : Option Buffer :=
  (s.Int 0).bind (fun i =>
    let oe : Int × Int :=
      if i = 0 then
        (b.Width * b.Cursor.Y + b.Cursor.X, b.Width * (b.Cursor.Y + 1) - 1)
      else if i = 1 then
        (b.Width * (b.Cursor.Y - 1) + 1, b.Width * b.Cursor.Y + b.Cursor.X)
      else if i = 2 then
        (b.Width * (b.Cursor.Y - 1) + 1, b.Width * (b.Cursor.Y + 1) - 1)
      else (0, 0)
    let o := MaxInt oe.1 0
    let e := MinInt oe.2 b.Len
    parseELLoop b o (e - o).toNat)

/-- The loop `for ; i > 0; i-- { p.buffer.Insert(o, p.buffer.Width) }` of
`parseIL`, `n` iterations left. -/
def parseILLoop (b : Buffer) (o : Int) : Nat → Option Buffer
  | 0 => some b
  | n + 1 => (b.Insert o b.Width).bind (fun b1 => parseILLoop b1 o n)

/-- The handler `parseIL`; `Normalize` acts on the buffer's cursor in place. -/
def parseIL (s : ANSISequence) (b : Buffer) : Option Buffer :=
  (if s.Len > 0 then s.Int 0 else some 1).bind (fun i =>
    let b1 := b.Normalize
    let o := b1.Width * b1.Cursor.Y
    parseILLoop b1 o i.toNat)

/-- Assignment to `p.buffer.Cursor.Attrib`. -/
def Cursor.withAttrib (c : Cursor) (a : Nat) : Cursor :=
  { c with Tile := { c.Tile with Attrib := a } }

/-- One pass of the `switch n` in `parseSGR`, on the cursor. -/
def sgrStep (c : Cursor) (n : Int) : Cursor :=
  if n = 0 then c.ResetAttrib
  else if n = 1 then c.withAttrib (setFlag c.Tile.Attrib ATTRIB_BOLD)
  else if n = 2 then c.withAttrib (setFlag c.Tile.Attrib ATTRIB_FAINT)
  else if n = 3 then c.withAttrib (setFlag c.Tile.Attrib ATTRIB_ITALICS)
  else if n = 4 then
    c.withAttrib (setFlag (clearFlag c.Tile.Attrib ATTRIB_UNDERLINE_DOUBLE) ATTRIB_UNDERLINE)
  else if n = 5 ∨ n = 6 then c.withAttrib (setFlag c.Tile.Attrib ATTRIB_BLINK)
  else if n = 7 then c.withAttrib (setFlag c.Tile.Attrib ATTRIB_NEGATIVE)
  else if n = 8 then c.withAttrib (setFlag c.Tile.Attrib ATTRIB_CONCEAL)
  else if n = 9 then c.withAttrib (setFlag c.Tile.Attrib ATTRIB_CROSS_OUT)
  else if 10 ≤ n ∧ n ≤ 19 then { c with Tile := { c.Tile with Font := n - 10 } }
  else if n = 20 then c.withAttrib (setFlag c.Tile.Attrib ATTRIB_GOTHIC)
  else if n = 21 then
    c.withAttrib (setFlag (clearFlag c.Tile.Attrib ATTRIB_UNDERLINE) ATTRIB_UNDERLINE_DOUBLE)
  else if n = 22 then
    c.withAttrib (clearFlag (clearFlag c.Tile.Attrib ATTRIB_BOLD) ATTRIB_FAINT)
  else if n = 23 then
    c.withAttrib (clearFlag (clearFlag c.Tile.Attrib ATTRIB_ITALICS) ATTRIB_GOTHIC)
  else if n = 24 then
    c.withAttrib (clearFlag (clearFlag c.Tile.Attrib ATTRIB_UNDERLINE) ATTRIB_UNDERLINE_DOUBLE)
  else if n = 25 then c.withAttrib (clearFlag c.Tile.Attrib ATTRIB_BLINK)
  else if n = 26 then c
  else if n = 27 then c.withAttrib (clearFlag c.Tile.Attrib ATTRIB_NEGATIVE)
  else if n = 28 then c.withAttrib (clearFlag c.Tile.Attrib ATTRIB_CONCEAL)
  else if n = 29 then c.withAttrib (clearFlag c.Tile.Attrib ATTRIB_CROSS_OUT)
  else if 30 ≤ n ∧ n ≤ 37 then { c with Tile := { c.Tile with Color := n - 30 } }
  else if n = 38 then c
  else if n = 39 then { c with Tile := { c.Tile with Color := TILE_DEFAULT_COLOR } }
  else if 40 ≤ n ∧ n ≤ 47 then { c with Tile := { c.Tile with Background := n - 40 } }
  else if n = 48 then c
  else if n = 49 then { c with Tile := { c.Tile with Background := TILE_DEFAULT_BACKGROUND } }
  else if n = 50 then c
  else if n = 51 then c.withAttrib (setFlag c.Tile.Attrib ATTRIB_FRAME)
  else if n = 52 then c.withAttrib (setFlag c.Tile.Attrib ATTRIB_ENCIRCLE)
  else if n = 53 then c.withAttrib (setFlag c.Tile.Attrib ATTRIB_OVERLINE)
  else if n = 54 then
    c.withAttrib (clearFlag (clearFlag c.Tile.Attrib ATTRIB_FRAME) ATTRIB_ENCIRCLE)
  else if n = 55 then c.withAttrib (clearFlag c.Tile.Attrib ATTRIB_OVERLINE)
  else if 56 ≤ n ∧ n ≤ 59 then c
  else if n = 60 then c.withAttrib (setFlag c.Tile.Attrib ATTRIB_IDEOGRAM_UNDERLINE)
  else if n = 61 then c.withAttrib (setFlag c.Tile.Attrib ATTRIB_IDEOGRAM_UNDERLINE_DOUBLE)
  else if n = 62 then c.withAttrib (setFlag c.Tile.Attrib ATTRIB_IDEOGRAM_OVERLINE)
  else if n = 63 then c.withAttrib (setFlag c.Tile.Attrib ATTRIB_IDEOGRAM_OVERLINE_DOUBLE)
  else if n = 64 then c.withAttrib (setFlag c.Tile.Attrib ATTRIB_IDEOGRAM_STRESS_MARKING)
  else if n = 65 then
    c.withAttrib
      (clearFlag (clearFlag (clearFlag (clearFlag (clearFlag c.Tile.Attrib
        ATTRIB_IDEOGRAM_UNDERLINE) ATTRIB_IDEOGRAM_UNDERLINE_DOUBLE)
        ATTRIB_IDEOGRAM_OVERLINE) ATTRIB_IDEOGRAM_OVERLINE_DOUBLE)
        ATTRIB_IDEOGRAM_STRESS_MARKING)
  else if 90 ≤ n ∧ n ≤ 97 then { c with Tile := { c.Tile with Color := n - 90 } }
  else if 100 ≤ n ∧ n ≤ 107 then { c with Tile := { c.Tile with Background := n - 100 } }
  else c

/-- The handler `parseSGR`: `for _, n := range s.Ints()`. -/
def parseSGR (s : ANSISequence) (b : Buffer) : Option Buffer :=
  some { b with Cursor := s.Ints.foldl sgrStep b.Cursor }

/-! ## Package parser: the emulator (parser/ansi.go) -/

/-- Modelled from the spec: the byte constants of the parser are declared in a
file that is not in the source tree; `SUB` is 0x1A. -/
def SUB : Nat := 0x1A
/-- Modelled from the spec: `ESC` is 0x1B. -/
def ESC : Nat := 0x1B
/-- Modelled from the spec: `NL` is 0x0A. -/
def NL : Nat := 0x0A
/-- Modelled from the spec: `CR` is 0x0D. -/
def CR : Nat := 0x0D
/-- Modelled from the spec: `TAB` is 0x09. -/
def TAB : Nat := 0x09

/-- The constant `ANSI_TABSTOP`. -/
def ANSI_TABSTOP : Int := 8

/-- Modelled from the spec: `isAlpha` is declared in a file that is not in the
source tree; it holds of the ASCII letters `A`..`Z`, `a`..`z`. -/
def isAlpha (ch : Nat) : Bool := (65 ≤ ch && ch ≤ 90) || (97 ≤ ch && ch ≤ 122)

/-- Modelled from the spec: the states of the parser are declared in a file
that is not in the source tree: TEXT, WAIT_INTRODUCER (after ESC), WAIT_FINAL
(inside a CSI), under the names `Parse` uses, and the terminal state. -/
inductive ParseState where
  | STATE_TEXT
  | STATE_ANSI_WAIT_BRACE
  | STATE_ANSI_WAIT_LITERAL
  | STATE_EXIT
deriving DecidableEq, Repr

open ParseState

/-- The struct `ANSI`, as far as `Parse` uses it: the buffer.  The opcode
table is the function `opcode` below; the fields `Palette` and `transform`
are set by `NewANSI` and read by neither `Parse` nor a handler. -/
structure ANSI where
  buffer : Buffer
deriving DecidableEq, Repr

/-- The function `NewANSI(w, h)`. -/
def NewANSI (w h : Int) : Option ANSI := (New w h).map (fun b => { buffer := b })

/-- The opcode table built by `NewANSI`, keyed by the final byte
(`ANSI_ICH = 0x40` and up): `none` is a missing key. -/
def opcode (ch : Nat) : Option (ANSISequence → Buffer → Option Buffer) :=
  if ch = 0x47 then some parseCHA        -- ANSI_CHA, 'G'
  else if ch = 0x45 then some parseCNL   -- ANSI_CNL, 'E'
  else if ch = 0x46 then some parseCHA   -- ANSI_CPL, 'F'
  else if ch = 0x44 then some parseCUB   -- ANSI_CUB, 'D'
  else if ch = 0x42 then some parseCUD   -- ANSI_CUD, 'B'
  else if ch = 0x43 then some parseCUF   -- ANSI_CUF, 'C'
  else if ch = 0x48 then some parseCUP   -- ANSI_CUP, 'H'
  else if ch = 0x41 then some parseCUU   -- ANSI_CUU, 'A'
  else if ch = 0x4A then some parseED    -- ANSI_ED, 'J'
  else if ch = 0x4B then some parseEL    -- ANSI_EL, 'K'
  else if ch = 0x4C then some parseIL    -- ANSI_IL, 'L'
  else if ch = 0x66 then some parseCUP   -- ANSI_HVP, 'f'
  else if ch = 0x6D then some parseSGR   -- ANSI_SGR, 'm'
  else none

/-- The loop `for i := 0; i < c; i++ { p.buffer.PutChar(' ') }` of the TAB
case, `n` iterations left. -/
def tabLoop (b : Buffer) : Nat → Option Buffer
  | 0 => some b
  | n + 1 => (b.PutChar 32).bind (fun b1 => tabLoop b1 n)

/-- The local variables `state` and `seq` of `Parse` together with the
receiver. -/
structure Machine where
  state : ParseState
  seq : ANSISequence
  p : ANSI
deriving DecidableEq, Repr

/-- The assignment to `p.buffer`. -/
def Machine.withBuffer (m : Machine) (b : Buffer) : Machine :=
  { m with p := { buffer := b } }

/-- One turn of the loop body of `Parse` after a byte `ch` was read:
`switch state`. -/
def step (m : Machine) (ch : Nat) : Option Machine :=
  match m.state with
  | STATE_TEXT =>
    if ch = SUB then some { m with state := STATE_EXIT }
    else if ch = ESC then some { m with state := STATE_ANSI_WAIT_BRACE }
    else if ch = NL then
      some (m.withBuffer { m.p.buffer with
        Cursor := { m.p.buffer.Cursor with Y := m.p.buffer.Cursor.Y + 1 } })
    else if ch = CR then
      some (m.withBuffer { m.p.buffer with Cursor := { m.p.buffer.Cursor with X := 0 } })
    else if ch = TAB then
      let c := Int.tmod (m.p.buffer.Cursor.X + 1) ANSI_TABSTOP
      if c > 0 then
        (tabLoop m.p.buffer (ANSI_TABSTOP - c).toNat).map m.withBuffer
      else some m
    else (m.p.buffer.PutChar ch).map m.withBuffer
  | STATE_ANSI_WAIT_BRACE =>
    if ch = 91 then some { m with state := STATE_ANSI_WAIT_LITERAL }
    else ((m.p.buffer.PutChar ESC).bind (fun b => b.PutChar ch)).map m.withBuffer
  | STATE_ANSI_WAIT_LITERAL =>
    if ch = 59 then some { m with seq := m.seq.Flush }
    else if isAlpha ch then
      let seq := m.seq.Flush
      match opcode ch with
      | none => some { m with seq := seq.Reset, state := STATE_TEXT }
      | some fn =>
        (fn seq m.p.buffer).map (fun b =>
          { state := STATE_TEXT, seq := seq.Reset, p := { buffer := b } })
    else some { m with seq := m.seq.Buffer ch }
  | STATE_EXIT => some m

/-- The loop `for state != STATE_EXIT` of `Parse` over the bytes `r` of the
reader, stopped when the state is `STATE_EXIT` or when no byte is left,
before the read that finds the end of the stream. -/
def run : Machine → List Nat → Option Machine
  | m, [] => some m
  | m, ch :: rest =>
    if m.state = STATE_EXIT then some m
    else (step m ch).bind (fun m1 => run m1 rest)

/-- The whole loop of `Parse`: the read at the end of the stream sets
`STATE_EXIT`. -/
def feed (m : Machine) (r : List Nat) : Option Machine :=
  (run m r).map (fun m1 => { m1 with state := STATE_EXIT })

/-- The machine at the entry of `Parse`. -/
def Machine.init (p : ANSI) : Machine :=
  { state := STATE_TEXT, seq := NewANSISequence, p := p }

/-- The method `Parse` on a reader holding the bytes `r`: the emulator
afterwards and whether the returned error is non-nil (`return nil`: never);
`none` is a panic. -/
def ANSI.Parse (p : ANSI) (r : List Nat) : Option (ANSI × Bool) :=
  (feed (Machine.init p) r).map (fun m => (m.p, false))

/-- The inner loop `for x := 0; x < w; x++` of `String`, `n` iterations left:
the buffer (`Tile` allocates) and the string built so far, as the list of its
characters (`string(t.Char)` is the one character with the code of the byte). -/
def StringRowLoop (b : Buffer) (y x : Int) (s : List Nat) : Nat → Option (Buffer × List Nat)
  | 0 => some (b, s)
  | n + 1 =>
    match b.Tile (y * b.Width + x) with
    | none => none
    | some (b1, none) => StringRowLoop b1 y (x + 1) (s ++ [32]) n
    | some (b1, some t) => StringRowLoop b1 y (x + 1) (s ++ [t.Char]) n

/-- The outer loop `for y := 0; y < h; y++` of `String`, `n` iterations left. -/
def StringLoop (b : Buffer) (w y : Int) (s : List Nat) : Nat → Option (Buffer × List Nat)
  | 0 => some (b, s)
  | n + 1 =>
    match StringRowLoop b y 0 s w.toNat with
    | none => none
    | some (b1, s1) => StringLoop b1 w (y + 1) (s1 ++ [10]) n

/-- The method `String`: the emulator afterwards and the returned string as
the list of its characters; `none` is a panic. -/
def ANSI.String (p : ANSI) : Option (ANSI × List Nat) :=
  (StringLoop p.buffer p.buffer.SizeMax.1 0 [] p.buffer.SizeMax.2.toNat).map
    (fun r => ({ buffer := r.1 }, r.2))


/-! ## Package color (color/palette.go) -/

/-- The function `init` of color/palette.go run on
`VGAPalette = make(Palette, 256)`, over any type of colours (a `Color` is four
float64 values, which the layout of the palette does not depend on): `zero` is
the zero `Color` that `make` fills in, `cga i` is `CGAPalette[i]`,
`cube r g b` the `Color` literal of the colour cube loop and `gray i` the one
of the gray ramp loop.  The first loop assigns `VGAPalette[i]`, the other two
`append`. -/
def VGAPalette {α : Type} (zero : α) (cga : Nat → α) (cube : Nat → Nat → Nat → α)
    (gray : Nat → α) : List α :=
  let p0 := List.replicate 256 zero
  let p1 := (List.range 16).foldl (fun p i => p.set i (cga i)) p0
  let p2 := (List.range 6).foldl (fun p r =>
    (List.range 6).foldl (fun p g =>
      (List.range 6).foldl (fun p b => p ++ [cube r g b]) p) p) p1
  (List.range 24).foldl (fun p i => p ++ [gray i]) p2

/-- The colour expressions of palette.go by name. -/
inductive ColorExpr where
  | zero
  | cga (i : Nat)
  | cube (r g b : Nat)
  | gray (i : Nat)
deriving DecidableEq, Repr

/-- The palette after `init`, each slot named by the expression stored in it. -/
def VGAPaletteExprs : List ColorExpr :=
  VGAPalette ColorExpr.zero ColorExpr.cga ColorExpr.cube ColorExpr.gray

/-! ## Observations used in the statements -/

/-- A well-formed decimal integer as a parameter string: an optional sign
followed by one or more decimal digits. -/
def isDecimal (p : List Nat) : Bool :=
  match p with
  | [] => false
  | c :: cs =>
    let body := if c = 43 ∨ c = 45 then cs else p
    !body.isEmpty && body.all (fun d => decide (48 ≤ d ∧ d ≤ 57))

/-- The bits 3 and 4 (UNDERLINE, UNDERLINE_DOUBLE) of the attribute set of `x`
are those of `c`, or one of them is clear. -/
def bitsOK (c x : Cursor) : Prop :=
  (x.Tile.Attrib.testBit 3 = c.Tile.Attrib.testBit 3 ∧
    x.Tile.Attrib.testBit 4 = c.Tile.Attrib.testBit 4) ∨
  x.Tile.Attrib.testBit 3 = false ∨ x.Tile.Attrib.testBit 4 = false

/-- The buffer `b1` has the width and height of `b` and at least as many
slots. -/
def keeps (b b1 : Buffer) : Prop :=
  b1.Width = b.Width ∧ b1.Height = b.Height ∧ b.Tiles.length ≤ b1.Tiles.length

/-- The emulator `NewANSI(w, h)` run on the input `r` by `Parse`: `none` is a
panic (of the construction or of `Parse`). -/
def parseBytes (w h : Int) (r : List Nat) : Option (ANSI × Bool) :=
  (NewANSI w h).bind (fun p => p.Parse r)

/-- The machine of `Parse` on `NewANSI(w, h)` after the bytes `r` were
consumed, before the next read. -/
def runBytes (w h : Int) (r : List Nat) : Option Machine :=
  (NewANSI w h).bind (fun p => run (Machine.init p) r)

/-- The tile `PutChar` leaves at the cursor: the cursor template with the
character stored in it. -/
def written (c : Cursor) (ch : Nat) : Tile :=
  { Char := ch, Color := c.Tile.Color, Background := c.Tile.Background,
    Attrib := c.Tile.Attrib, Font := c.Tile.Font }

/-- The cursor after `PutChar`: character stored in the template, `X++`,
`NormalizeAndWrap`. -/
def advanced (c : Cursor) (ch : Nat) (w : Int) : Cursor :=
  Cursor.NormalizeAndWrap
    { X := intAt w (c.X + 1), Y := c.Y, Tile := { c.Tile with Char := ch } } w

/-- The digits of `decimal`, most significant first, put before `acc`;
`fuel` bounds the number of digits. -/
def decimalAux : Nat → Nat → List Nat → List Nat
  | 0, _, acc => acc
  | fuel + 1, n, acc =>
    if n < 10 then (48 + n) :: acc
    else decimalAux fuel (n / 10) ((48 + n % 10) :: acc)

/-- The decimal numeral of `n` as ASCII bytes, without leading zeros: the
parameter bytes of a CSI sequence that denote `n`. -/
def decimal (n : Nat) : List Nat := decimalAux (n + 1) n []

/-- A 10x2 emulator at the entry of `Parse`, as `NewANSI(10, 2)` builds it. -/
def smallMachine : Machine :=
  Machine.init { buffer := { Width := 10, Height := 2, Cursor := NewCursor 0 0,
                             Tiles := List.replicate 20 none, maxWidth := 0, maxHeight := 0 } }

/-- The buffer of `NewANSI(3, 2)` after the input `A` ESC `[1;3H` `BC`: `A` and
`B` in the columns 0 and 2 of row 0, `C` in column 0 of row 1, the other slots
absent, the cursor at `(1, 1)`. -/
def tiledBuffer : Buffer :=
  { Width := 3, Height := 2,
    Cursor := { X := 1, Y := 1, Tile := { NewTile with Char := 67 } },
    Tiles := [some { NewTile with Char := 65 }, none, some { NewTile with Char := 66 },
              some { NewTile with Char := 67 }, none, none],
    maxWidth := 1, maxHeight := 1 }

/-! ## Lemmas -/

theorem MaxInt_eq_max (a b : Int) : MaxInt a b = max a b := by
  unfold MaxInt; split <;> omega

theorem MinInt_eq_min (a b : Int) : MinInt a b = min a b := by
  unfold MinInt; split <;> omega

theorem wrapInt_exact (i : Int) (h1 : -9223372036854775808 ≤ i)
    (h2 : i < 9223372036854775808) : wrapInt i = i := by
  unfold wrapInt; omega

theorem intAt_width (w i : Int)
    (h : -9223372036854775808 ≤ w → w < 9223372036854775808 →
      -9223372036854775808 ≤ i ∧ i < 9223372036854775808) : intAt w i = i := by
  unfold intAt
  split
  · rename_i hw
    exact wrapInt_exact i (h hw.1 hw.2).1 (h hw.1 hw.2).2
  · rfl

theorem intAt_exact (w i : Int) (h1 : -9223372036854775808 ≤ i)
    (h2 : i < 9223372036854775808) : intAt w i = i :=
  intAt_width w i (fun _ _ => ⟨h1, h2⟩)

theorem Offset_exact (c : Cursor) (w : Int) (h1 : 0 ≤ c.Y * w + c.X)
    (h2 : c.Y * w + c.X < 9223372036854775808) : c.Offset w = c.Y * w + c.X := by
  unfold Cursor.Offset
  exact intAt_exact w _ (by omega) h2

theorem set_of_getElem? {α : Type} (ts : List α) (i : Nat) (x : α) (h : ts[i]? = some x) :
    ts.set i x = ts := by
  apply List.ext_getElem?
  intro n
  by_cases hn : i = n
  · subst hn
    rw [List.getElem?_set]
    simp only [if_true]
    have hlt : i < ts.length := by
      by_contra hc
      rw [List.getElem?_eq_none (by omega)] at h
      cases h
    simp only [hlt, if_true, h]
  · rw [List.getElem?_set_ne hn]

theorem Tile_inside (b : Buffer) (o : Int) (h0 : 0 ≤ o) (hl : o < b.lenTiles) :
    ∃ t, b.Tile o = some ({ b with Tiles := b.Tiles.set o.toNat (some t) }, some t) := by
  unfold Buffer.Tile
  have h1 : ¬ (o ≥ b.lenTiles) := by omega
  have h2 : ¬ (o < 0) := by omega
  simp only [h1, h2, if_false]
  cases hg : b.Tiles.getD o.toNat none with
  | none => exact ⟨NewTile, rfl⟩
  | some t =>
    refine ⟨t, ?_⟩
    have : b.Tiles[o.toNat]? = some (some t) := by
      rw [List.getD_eq_getElem?_getD] at hg
      unfold Buffer.lenTiles at hl
      have hlt : o.toNat < b.Tiles.length := by omega
      rw [List.getElem?_eq_getElem hlt] at hg ⊢
      simpa using hg
    rw [set_of_getElem? _ _ _ this]

theorem PutChar_eq (b : Buffer) (ch : Nat) (ho : 0 ≤ b.Cursor.Offset b.Width) :
    b.PutChar ch = some
      { Width := b.Width, Height := b.Height,
        Cursor := advanced b.Cursor ch b.Width,
        Tiles := (b.Tiles ++ List.replicate ((b.Cursor.Offset b.Width).toNat + 1 - b.Tiles.length) none).set
                    (b.Cursor.Offset b.Width).toNat (some (written b.Cursor ch)),
        maxWidth := MaxInt b.maxWidth (advanced b.Cursor ch b.Width).X,
        maxHeight := MaxInt b.maxHeight (advanced b.Cursor ch b.Width).Y } := by
  unfold Buffer.PutChar
  simp only [Cursor.Offset] at ho ⊢
  generalize hoe : intAt b.Width (b.Cursor.Y * b.Width + b.Cursor.X) = o at ho ⊢
  have hexp : ∀ b1 : Buffer, b1.Tiles = b.Tiles →
      (b1.Expand o).Tiles = b.Tiles ++ List.replicate (o.toNat + 1 - b.Tiles.length) none ∧
      (b1.Expand o).Width = b1.Width ∧ (b1.Expand o).Height = b1.Height ∧
      (b1.Expand o).Cursor = b1.Cursor ∧ (b1.Expand o).maxWidth = b1.maxWidth ∧
      (b1.Expand o).maxHeight = b1.maxHeight ∧ o < (b1.Expand o).lenTiles := by
    intro b1 hb1
    unfold Buffer.Expand
    simp only [Buffer.lenTiles, hb1]
    by_cases hl : (b.Tiles.length : Int) ≤ o
    · have h3 : (o - (b.Tiles.length : Int) + 1).toNat = o.toNat + 1 - b.Tiles.length := by omega
      simp only [hl, if_true, h3, List.length_append, List.length_replicate, hb1]
      refine ⟨trivial, trivial, trivial, trivial, trivial, trivial, ?_⟩
      omega
    · have h3 : o.toNat + 1 - b.Tiles.length = 0 := by omega
      simp only [hl, if_false, h3, List.replicate_zero, List.append_nil, hb1]
      refine ⟨trivial, trivial, trivial, trivial, trivial, trivial, ?_⟩
      omega
  have key : ∀ b1 : Buffer, b1.Tiles = b.Tiles → b1.Width = b.Width → b1.Height = b.Height →
      b1.Cursor = { X := b.Cursor.X, Y := b.Cursor.Y, Tile := { b.Cursor.Tile with Char := ch } } →
      b1.maxWidth = b.maxWidth → b1.maxHeight = b.maxHeight →
      (match (b1.Expand o).Tile o with
        | none => none
        | some (_, none) => none
        | some (b2, some t) =>
          some
            ({ Width := b2.Width, Height := b2.Height,
               Cursor := Cursor.NormalizeAndWrap { X := intAt b2.Width (b2.Cursor.X + 1), Y := b2.Cursor.Y, Tile := b2.Cursor.Tile } b2.Width,
               Tiles := b2.Tiles.set o.toNat (some (t.Update b2.Cursor.Tile)),
               maxWidth := MaxInt b2.maxWidth
                 (Cursor.NormalizeAndWrap { X := intAt b2.Width (b2.Cursor.X + 1), Y := b2.Cursor.Y, Tile := b2.Cursor.Tile } b2.Width).X,
               maxHeight := MaxInt b2.maxHeight
                 (Cursor.NormalizeAndWrap { X := intAt b2.Width (b2.Cursor.X + 1), Y := b2.Cursor.Y, Tile := b2.Cursor.Tile } b2.Width).Y } : Buffer)) =
      some
        ({ Width := b.Width, Height := b.Height, Cursor := advanced b.Cursor ch b.Width,
           Tiles := (b.Tiles ++ List.replicate (o.toNat + 1 - b.Tiles.length) none).set o.toNat
             (some (written b.Cursor ch)),
           maxWidth := MaxInt b.maxWidth (advanced b.Cursor ch b.Width).X,
           maxHeight := MaxInt b.maxHeight (advanced b.Cursor ch b.Width).Y } : Buffer) := by
    intro b1 hb1t hw hh hc hmw hmh
    obtain ⟨e1, e2, e3, e4, e5, e6, e7⟩ := hexp b1 hb1t
    obtain ⟨t, ht⟩ := Tile_inside (b1.Expand o) o ho e7
    rw [ht]
    simp only [List.set_set, e1, e2, e3, e4, e5, e6, hw, hh, hc, hmw, hmh]
    rfl
  exact key _ rfl rfl rfl rfl rfl rfl


theorem run_exit (m : Machine) (r : List Nat) (h : m.state = STATE_EXIT) : run m r = some m := by
  cases r with
  | nil => rfl
  | cons ch rest => simp only [run, h, if_true]

theorem run_append (r1 r2 : List Nat) : ∀ m : Machine,
    run m (r1 ++ r2) = (run m r1).bind (fun m1 => run m1 r2) := by
  induction r1 with
  | nil => intro m; rfl
  | cons ch rest ih =>
    intro m
    by_cases h : m.state = STATE_EXIT
    · simp only [List.cons_append, run, h, if_true, Option.some_bind]
      exact (run_exit _ _ h).symm
    · simp only [List.cons_append, run, h, if_false]
      cases hs : step m ch with
      | none => rfl
      | some m1 => exact ih m1

theorem step_SUB (m : Machine) (h : m.state = STATE_TEXT) :
    step m SUB = some { m with state := STATE_EXIT } := by
  unfold step
  rw [h]
  simp only [if_true]

theorem written_advanced (c : Cursor) (ch : Nat) (w : Int) (ch1 : Nat) :
    written (advanced c ch w) ch1 = written c ch1 := by
  unfold written advanced Cursor.NormalizeAndWrap Cursor.clamp
  split <;> rfl

theorem advanced_nowrap (c : Cursor) (ch : Nat) (w : Int) (hx : 0 ≤ c.X) (hy : 0 ≤ c.Y)
    (h : c.X + 1 < w) (hi : intAt w (c.X + 1) = c.X + 1) :
    (advanced c ch w).X = c.X + 1 ∧ (advanced c ch w).Y = c.Y := by
  unfold advanced Cursor.NormalizeAndWrap Cursor.clamp
  have : ¬ (c.X + 1 ≥ w) := by omega
  simp only [hi, this, if_false, MaxInt_eq_max]
  constructor <;> omega

theorem tabLoop_spec : ∀ (n : Nat) (b : Buffer), 0 < b.Width → 0 ≤ b.Cursor.X →
    0 ≤ b.Cursor.Y → b.Cursor.X + n < b.Width ∨ n = 0 →
    b.Cursor.Y * b.Width + b.Cursor.X + n < 9223372036854775808 →
    ∃ b1, tabLoop b n = some b1 ∧ b1.Width = b.Width ∧ b1.Height = b.Height ∧
      b1.Cursor.X = b.Cursor.X + n ∧ b1.Cursor.Y = b.Cursor.Y ∧
      (∀ ch, written b1.Cursor ch = written b.Cursor ch) ∧
      b.Tiles.length ≤ b1.Tiles.length ∧
      (∀ c : Nat, c < n →
        b1.Tiles[(b.Cursor.Y * b.Width + b.Cursor.X).toNat + c]? =
          some (some (written b.Cursor 32))) ∧
      (∀ i : Nat, i < (b.Cursor.Y * b.Width + b.Cursor.X).toNat → i < b.Tiles.length →
        b1.Tiles[i]? = b.Tiles[i]?) := by
  intro n
  induction n with
  | zero =>
    intro b _ _ _ _ _
    refine ⟨b, rfl, rfl, rfl, by simp, rfl, fun _ => rfl, le_refl _, ?_, fun _ _ _ => rfl⟩
    intro c hc; omega
  | succ n ih =>
    intro b hw hx hy hroom hrange
    have hroom1 : b.Cursor.X + ((n + 1 : Nat) : Int) < b.Width := by
      rcases hroom with h | h
      · exact h
      · omega
    have hyw : 0 ≤ b.Cursor.Y * b.Width := mul_nonneg hy (le_of_lt hw)
    push_cast at hrange
    have hoe : b.Cursor.Offset b.Width = b.Cursor.Y * b.Width + b.Cursor.X :=
      Offset_exact b.Cursor b.Width (by omega) (by omega)
    have ho : 0 ≤ b.Cursor.Offset b.Width := by rw [hoe]; omega
    have hadv := advanced_nowrap b.Cursor 32 b.Width hx hy (by push_cast at hroom1; omega)
      (intAt_exact _ _ (by omega) (by omega))
    obtain ⟨hax, hay⟩ := hadv
    simp only [tabLoop, PutChar_eq b 32 ho, Option.some_bind]
    obtain ⟨b1, h1, h2, h3, h4, h5, h6, h7, h8, h9⟩ := ih
      { Width := b.Width, Height := b.Height,
        Cursor := advanced b.Cursor 32 b.Width,
        Tiles := (b.Tiles ++ List.replicate ((b.Cursor.Offset b.Width).toNat + 1 - b.Tiles.length) none).set
                    (b.Cursor.Offset b.Width).toNat (some (written b.Cursor 32)),
        maxWidth := MaxInt b.maxWidth (advanced b.Cursor 32 b.Width).X,
        maxHeight := MaxInt b.maxHeight (advanced b.Cursor 32 b.Width).Y }
      hw (by simp only [hax]; omega) (by simp only [hay]; exact hy)
      (by left; simp only [hax]; push_cast at hroom1; omega)
      (by simp only [hax, hay]; omega)
    simp only [hax, hay, written_advanced, hoe, List.length_set, List.length_append,
      List.length_replicate] at h2 h3 h4 h5 h6 h7 h8 h9
    refine ⟨b1, h1, h2, h3, ?_, h5, h6, ?_, ?_, ?_⟩
    · rw [h4]; push_cast; ring
    · omega
    · intro c hc
      cases c with
      | zero =>
        rw [Nat.add_zero, h9 _ (by omega) (by omega)]
        rw [List.getElem?_set_self]
        simp only [List.length_append, List.length_replicate]; omega
      | succ c =>
        have := h8 c (by omega)
        have hidx : (b.Cursor.Y * b.Width + (b.Cursor.X + 1)).toNat + c =
            (b.Cursor.Y * b.Width + b.Cursor.X).toNat + (c + 1) := by omega
        rw [← hidx]; exact this
    · intro i hi hlen
      rw [h9 i (by omega) (by omega), List.getElem?_set_ne (by omega),
        List.getElem?_append_left hlen]

theorem run_single (m : Machine) (ch : Nat) (h : m.state ≠ STATE_EXIT) :
    run m [ch] = step m ch := by
  simp only [run, h, if_false]
  cases step m ch <;> rfl

theorem parseDigits_append (xs ys : List Nat) : ∀ a : Nat,
    parseDigits (xs ++ ys) a =
      (match parseDigits xs a with
        | (v, none) => parseDigits ys v
        | (v, some e) => (v, some e)) := by
  induction xs with
  | nil => intro a; rfl
  | cons c cs ih =>
    intro a
    simp only [List.cons_append, parseDigits]
    split
    · split
      · rfl
      · split
        · rfl
        · exact ih _
    · rfl

theorem decimalAux_spec : ∀ (fuel n : Nat) (acc : List Nat), n < fuel →
    ∃ ds, decimalAux fuel n acc = ds ++ acc ∧ ds ≠ [] ∧
      (∀ a, a * 10 ^ ds.length + n ≤ 18446744073709551615 →
        parseDigits ds a = (a * 10 ^ ds.length + n, none)) ∧
      (∀ c ∈ ds, 48 ≤ c ∧ c ≤ 57) := by
  intro fuel
  induction fuel with
  | zero => intro n acc h; omega
  | succ fuel ih =>
    intro n acc h
    by_cases hn : n < 10
    · refine ⟨[48 + n], ?_, by simp, ?_, ?_⟩
      · simp only [decimalAux, hn, if_true]; rfl
      · intro a ha
        simp only [List.length_singleton, pow_one] at ha ⊢
        have h1 : 48 ≤ 48 + n ∧ 48 + n ≤ 57 := by omega
        have h2 : ¬ (a ≥ 1844674407370955162) := by omega
        have h3 : ¬ (a * 10 + (48 + n - 48) > 18446744073709551615) := by omega
        have h4 : a * 10 + (48 + n - 48) = a * 10 + n := by omega
        have h3b : ¬ (a * 10 + n > 18446744073709551615) := by omega
        simp only [parseDigits, h1, and_self, if_true, h2, h3, if_false, h4, h3b]
      · intro c hc
        simp only [List.mem_singleton] at hc
        omega
    · obtain ⟨ds, h1, h2, h3, h4⟩ := ih (n / 10) ((48 + n % 10) :: acc) (by omega)
      refine ⟨ds ++ [48 + n % 10], ?_, by simp, ?_, ?_⟩
      · simp only [decimalAux, hn, if_false, h1, List.append_assoc, List.singleton_append]
      · intro a ha
        simp only [List.length_append, List.length_singleton, pow_succ] at ha ⊢
        have hdm := Nat.div_add_mod n 10
        have hval : (a * 10 ^ ds.length + n / 10) * 10 + n % 10 =
            a * (10 ^ ds.length * 10) + n := by
          have : (a * 10 ^ ds.length + n / 10) * 10 = a * (10 ^ ds.length * 10) + 10 * (n / 10) := by
            ring
          omega
        have hsmall : a * 10 ^ ds.length + n / 10 ≤ 18446744073709551615 := by omega
        have hd : 48 ≤ 48 + n % 10 ∧ 48 + n % 10 ≤ 57 := by omega
        have h5 : ¬ (a * 10 ^ ds.length + n / 10 ≥ 1844674407370955162) := by omega
        have h6 : ¬ ((a * 10 ^ ds.length + n / 10) * 10 + (48 + n % 10 - 48) >
            18446744073709551615) := by omega
        have h7 : (a * 10 ^ ds.length + n / 10) * 10 + (48 + n % 10 - 48) =
            a * (10 ^ ds.length * 10) + n := by omega
        rw [parseDigits_append, h3 a hsmall]
        have h6b : ¬ (a * (10 ^ ds.length * 10) + n > 18446744073709551615) := by omega
        simp only [parseDigits, hd, and_self, if_true, h5, h6, if_false, h7, h6b]
      · intro c hc
        rcases List.mem_append.mp hc with h | h
        · exact h4 c h
        · simp only [List.mem_singleton] at h
          omega

theorem decimal_digits (n : Nat) : ∀ c ∈ decimal n, 48 ≤ c ∧ c ≤ 57 := by
  obtain ⟨ds, h1, _, _, h4⟩ := decimalAux_spec (n + 1) n [] (by omega)
  unfold decimal
  rw [h1, List.append_nil]
  exact h4

theorem Atoi_decimal (n : Nat) (h : n < 9223372036854775808) :
    Atoi (decimal n) = ((n : Int), true) := by
  obtain ⟨ds, h1, h2, h3, h4⟩ := decimalAux_spec (n + 1) n [] (by omega)
  unfold decimal
  rw [h1, List.append_nil]
  cases ds with
  | nil => exact absurd rfl h2
  | cons c cs =>
    have hc := h4 c (List.mem_cons_self _ _)
    have e2 : ¬ (c = 45) := by omega
    have e4 : ¬ (c = 43) := by omega
    have e5 : ¬ (9223372036854775808 ≤ n) := by omega
    have h30 := h3 0 (by simp only [zero_mul, zero_add]; omega)
    simp only [zero_mul, zero_add] at h30
    simp only [Atoi, e2, e4, or_self, if_false, h30, reduceCtorEq, ge_iff_le, e5]

theorem run_cons (m : Machine) (ch : Nat) (rest : List Nat) (h : m.state ≠ STATE_EXIT) :
    run m (ch :: rest) = (step m ch).bind (fun m1 => run m1 rest) := by
  simp only [run, h, if_false]

theorem step_param (m : Machine) (c : Nat) (h : m.state = STATE_ANSI_WAIT_LITERAL)
    (hc : 48 ≤ c ∧ c ≤ 57) : step m c = some { m with seq := m.seq.Buffer c } := by
  unfold step
  rw [h]
  have e1 : ¬ (c = 59) := by omega
  have e2 : isAlpha c = false := by
    unfold isAlpha
    simp only [Bool.or_eq_false_iff, Bool.and_eq_false_iff, decide_eq_false_iff_not]
    omega
  simp only [e1, e2, if_false, Bool.false_eq_true]

theorem run_params (ds : List Nat) : ∀ m : Machine, m.state = STATE_ANSI_WAIT_LITERAL →
    (∀ c ∈ ds, 48 ≤ c ∧ c ≤ 57) →
    run m ds = some { m with seq := { s := m.seq.s, b := m.seq.b ++ ds } } := by
  induction ds with
  | nil => intro m _ _; simp only [run, List.append_nil]
  | cons c cs ih =>
    intro m h hd
    have hne : m.state ≠ STATE_EXIT := by rw [h]; decide
    rw [run_cons m c cs hne, step_param m c h (hd c (List.mem_cons_self _ _)), Option.some_bind,
      ih { m with seq := m.seq.Buffer c } h (fun x hx => hd x (List.mem_cons_of_mem _ hx))]
    simp only [ANSISequence.Buffer, List.append_assoc, List.singleton_append]

theorem step_ESC (m : Machine) (h : m.state = STATE_TEXT) :
    step m ESC = some { m with state := STATE_ANSI_WAIT_BRACE } := by
  unfold step
  rw [h]
  have e1 : ¬ (ESC = SUB) := by decide
  simp only [e1, if_false, if_true]

theorem step_brace (m : Machine) (h : m.state = STATE_ANSI_WAIT_BRACE) :
    step m 91 = some { m with state := STATE_ANSI_WAIT_LITERAL } := by
  unfold step
  rw [h]
  simp only [if_true]

theorem step_semicolon (m : Machine) (h : m.state = STATE_ANSI_WAIT_LITERAL) :
    step m 59 = some { m with seq := m.seq.Flush } := by
  unfold step
  rw [h]
  simp only [if_true]

theorem step_final (m : Machine) (f : Nat) (fn : ANSISequence → Buffer → Option Buffer)
    (b1 : Buffer) (h : m.state = STATE_ANSI_WAIT_LITERAL) (hf : isAlpha f = true)
    (hop : opcode f = some fn) (hfn : fn m.seq.Flush m.p.buffer = some b1) :
    step m f = some { state := STATE_TEXT, seq := NewANSISequence, p := { buffer := b1 } } := by
  unfold step
  rw [h]
  have e1 : ¬ (f = 59) := by
    intro hc; rw [hc] at hf; exact absurd hf (by decide)
  simp only [e1, hf, if_false, if_true, hop, hfn, Option.map_some']
  rfl

/-- The CSI sequence ESC `[` followed by the bytes `r`. -/
theorem run_CSI (m : Machine) (r : List Nat) (h : m.state = STATE_TEXT) :
    run m (ESC :: 91 :: r) = run { m with state := STATE_ANSI_WAIT_LITERAL } r := by
  have hne : m.state ≠ STATE_EXIT := by rw [h]; decide
  rw [run_cons m ESC _ hne, step_ESC m h, Option.some_bind,
    run_cons { m with state := STATE_ANSI_WAIT_BRACE } 91 r (by intro hc; cases hc),
    step_brace { m with state := STATE_ANSI_WAIT_BRACE } rfl, Option.some_bind]

theorem Goto_nonneg (c : Cursor) (x y : Int) (hx : 0 ≤ x) (hy : 0 ≤ y) :
    c.Goto x y = { c with X := x, Y := y } := by
  unfold Cursor.Goto Cursor.clamp
  simp only [MaxInt_eq_max, max_eq_right hx, max_eq_right hy]


theorem isAlpha_H_f (f : Nat) (hf : f = 72 ∨ f = 102) :
    isAlpha f = true ∧ opcode f = some parseCUP := by
  rcases hf with h | h <;> subst h <;> exact ⟨by decide, rfl⟩

theorem run_CUP_two (m : Machine) (htext : m.state = STATE_TEXT) (hseq : m.seq = NewANSISequence)
    (row col : Nat) (hr : 1 ≤ row) (hc : 1 ≤ col)
    (hr2 : row < 9223372036854775808) (hc2 : col < 9223372036854775808)
    (f : Nat) (hf : f = 72 ∨ f = 102) :
    run m ([ESC, 91] ++ decimal row ++ [59] ++ decimal col ++ [f]) =
      some { state := STATE_TEXT, seq := NewANSISequence,
             p := { buffer := { m.p.buffer with
               Cursor := { m.p.buffer.Cursor with X := (col : Int) - 1, Y := (row : Int) - 1 } } } } := by
  obtain ⟨hal, hop⟩ := isAlpha_H_f f hf
  have e : [ESC, 91] ++ decimal row ++ [59] ++ decimal col ++ [f] =
      ESC :: 91 :: (decimal row ++ (59 :: (decimal col ++ [f]))) := by
    simp only [List.append_assoc, List.cons_append, List.nil_append]
  rw [e, run_CSI m _ htext, run_append,
    run_params (decimal row) { m with state := STATE_ANSI_WAIT_LITERAL } rfl (decimal_digits row),
    Option.some_bind, run_cons _ 59 _ (by intro hc; cases hc), step_semicolon _ rfl,
    Option.some_bind, run_append, run_params (decimal col) _ rfl (decimal_digits col),
    Option.some_bind, run_single _ f (by intro hc; cases hc)]
  apply step_final _ f parseCUP _ rfl hal hop
  simp only [hseq, NewANSISequence, ANSISequence.Flush, List.nil_append, parseCUP,
    ANSISequence.Len, List.length_cons, List.length_nil, ANSISequence.Int]
  norm_num [Atoi_decimal row hr2, Atoi_decimal col hc2]
  rw [Goto_nonneg _ _ _ (by omega) (by omega)]


theorem run_CUP_one (m : Machine) (htext : m.state = STATE_TEXT) (hseq : m.seq = NewANSISequence)
    (row : Nat) (hr : 1 ≤ row) (hr2 : row < 9223372036854775808)
    (f : Nat) (hf : f = 72 ∨ f = 102) :
    run m ([ESC, 91] ++ decimal row ++ [f]) =
      some { state := STATE_TEXT, seq := NewANSISequence,
             p := { buffer := { m.p.buffer with
               Cursor := { m.p.buffer.Cursor with X := 0, Y := (row : Int) - 1 } } } } := by
  obtain ⟨hal, hop⟩ := isAlpha_H_f f hf
  have e : [ESC, 91] ++ decimal row ++ [f] = ESC :: 91 :: (decimal row ++ [f]) := by
    simp only [List.append_assoc, List.cons_append, List.nil_append]
  rw [e, run_CSI m _ htext, run_append,
    run_params (decimal row) { m with state := STATE_ANSI_WAIT_LITERAL } rfl (decimal_digits row),
    Option.some_bind, run_single _ f (by intro hc; cases hc)]
  apply step_final _ f parseCUP _ rfl hal hop
  simp only [hseq, NewANSISequence, ANSISequence.Flush, List.nil_append, parseCUP,
    ANSISequence.Len, List.length_cons, List.length_nil, ANSISequence.Int]
  norm_num [Atoi_decimal row hr2]
  rw [Goto_nonneg _ _ _ (le_refl 0) (by omega)]

theorem run_CUP_none (m : Machine) (htext : m.state = STATE_TEXT) (hseq : m.seq = NewANSISequence)
    (f : Nat) (hf : f = 72 ∨ f = 102) :
    run m [ESC, 91, f] =
      some { state := STATE_TEXT, seq := NewANSISequence,
             p := { buffer := { m.p.buffer with
               Cursor := { m.p.buffer.Cursor with X := 0, Y := 0 } } } } := by
  obtain ⟨hal, hop⟩ := isAlpha_H_f f hf
  rw [run_CSI m _ htext, run_single _ f (by intro hc; cases hc)]
  apply step_final _ f parseCUP _ rfl hal hop
  simp only [hseq, NewANSISequence, ANSISequence.Flush, List.nil_append, parseCUP,
    ANSISequence.Len, List.length_cons, List.length_nil, ANSISequence.Int]
  norm_num [Atoi, Cursor.Goto, Cursor.clamp, MaxInt]

/-! ## C1: the postcondition of PutChar -/

/-- C1, counterexample to the claim as stated: on the 80x25 emulator the input
`B` ESC `[4611686018427387905H` leaves the cursor at `(0, 2^62)` (width 80,
2000 slots, slot 0 holding `B`).  The offset `y*w + x = 2^62 * 80` is `0` as a
64-bit int, so the next byte `A` is written to slot 0: afterwards the sequence
still has 2000 slots, the slot at offset `2^62 * 80` holds no tile, and slot 0,
which existed before and is not the slot of the cursor, holds `A` instead of
`B`. -/
theorem C1_PutChar_counterexample :
    (runBytes 80 25 [66, 0x1B, 91, 52, 54, 49, 49, 54, 56, 54, 48, 49, 56, 52, 50, 55, 51,
        56, 55, 57, 48, 53, 72]).map
      (fun m => (m.p.buffer.Width, m.p.buffer.Cursor.X, m.p.buffer.Cursor.Y,
        m.p.buffer.Tiles.length, (m.p.buffer.Tiles.getD 0 none).map Tile.Char)) =
      some (80, 0, 4611686018427387904, 2000, some 66) ∧
    (runBytes 80 25 [66, 0x1B, 91, 52, 54, 49, 49, 54, 56, 54, 48, 49, 56, 52, 50, 55, 51,
        56, 55, 57, 48, 53, 72, 65]).map
      (fun m => (m.p.buffer.Tiles.length,
        (m.p.buffer.Tiles.getD ((4611686018427387904 : Int) * 80 + 0).toNat none).map Tile.Char,
        (m.p.buffer.Tiles.getD 0 none).map Tile.Char,
        m.p.buffer.Cursor.X, m.p.buffer.Cursor.Y)) =
      some (2000, none, some 65, 1, 4611686018427387904) := by
  decide!

/-- C1, amended: for a buffer of positive width and a cursor at `(x, y)` with
`0 ≤ x < width`, `0 ≤ y` and `y*width + x + 1 < 2^63` (the offset and the
length of the sequence that holds it are Go ints), `PutChar ch` returns;
afterwards the slot at offset `y*width + x` holds a tile with `ch` and the
color, background, attrib and font of the cursor template, every other slot
that existed before is unchanged, the cursor is at `(x+1, y)` when
`x+1 < width` and at `(0, y+1)` otherwise, and `cursor.x < width`.  On the
80x25 emulator the input `A` gives `tiles[0].char = 'A'`, the cursor `(1, 0)`,
`maxWidth = 1`, `maxHeight = 0`. -/
theorem C1_PutChar_amended (b : Buffer) (ch : Nat)
    (hw : 0 < b.Width) (hx0 : 0 ≤ b.Cursor.X) (hx : b.Cursor.X < b.Width)
    (hy : 0 ≤ b.Cursor.Y)
    (hrange : b.Cursor.Y * b.Width + b.Cursor.X + 1 < 9223372036854775808) :
    (∃ b1, b.PutChar ch = some b1 ∧
      b1.Tiles[(b.Cursor.Y * b.Width + b.Cursor.X).toNat]? =
        some (some { Char := ch, Color := b.Cursor.Tile.Color,
                     Background := b.Cursor.Tile.Background,
                     Attrib := b.Cursor.Tile.Attrib, Font := b.Cursor.Tile.Font }) ∧
      (∀ i : Nat, i < b.Tiles.length → i ≠ (b.Cursor.Y * b.Width + b.Cursor.X).toNat →
        b1.Tiles[i]? = b.Tiles[i]?) ∧
      (b.Cursor.X + 1 < b.Width → b1.Cursor.X = b.Cursor.X + 1 ∧ b1.Cursor.Y = b.Cursor.Y) ∧
      (¬ b.Cursor.X + 1 < b.Width → b1.Cursor.X = 0 ∧ b1.Cursor.Y = b.Cursor.Y + 1) ∧
      b1.Cursor.X < b.Width) ∧
    (parseBytes 80 25 [65]).map (fun r =>
        (r.2, (r.1.buffer.Tiles.getD 0 none).map Tile.Char, r.1.buffer.Cursor.X,
          r.1.buffer.Cursor.Y, r.1.buffer.SizeMax)) =
      some (false, some 65, 1, 0, (1, 0)) := by
  have hyw : 0 ≤ b.Cursor.Y * b.Width := mul_nonneg hy (le_of_lt hw)
  have hyy : b.Cursor.Y ≤ b.Cursor.Y * b.Width := le_mul_of_one_le_right hy (by omega)
  have hoe : b.Cursor.Offset b.Width = b.Cursor.Y * b.Width + b.Cursor.X :=
    Offset_exact b.Cursor b.Width (by omega) (by omega)
  have hix : intAt b.Width (b.Cursor.X + 1) = b.Cursor.X + 1 :=
    intAt_exact _ _ (by omega) (by omega)
  have hiy : intAt b.Width (b.Cursor.Y + 1) = b.Cursor.Y + 1 :=
    intAt_exact _ _ (by omega) (by omega)
  have ho : 0 ≤ b.Cursor.Offset b.Width := by rw [hoe]; omega
  refine ⟨⟨_, PutChar_eq b ch ho, ?_, ?_, ?_, ?_, ?_⟩, ?_⟩
  · simp only [hoe]
    rw [List.getElem?_set_self]
    · rfl
    · simp only [List.length_append, List.length_replicate]; omega
  · intro i hi hne
    simp only [hoe]
    rw [List.getElem?_set_ne (Ne.symm hne), List.getElem?_append_left hi]
  · intro h
    simp only [advanced, Cursor.NormalizeAndWrap, Cursor.clamp, MaxInt_eq_max, hix]
    have : ¬ (b.Cursor.X + 1 ≥ b.Width) := by omega
    simp only [this, if_false]
    constructor <;> omega
  · intro h
    simp only [advanced, Cursor.NormalizeAndWrap, Cursor.clamp, MaxInt_eq_max, hix]
    have : (b.Cursor.X + 1 ≥ b.Width) := by omega
    simp only [this, if_true, hiy]
    constructor <;> omega
  · simp only [advanced, Cursor.NormalizeAndWrap, Cursor.clamp, MaxInt_eq_max, hix]
    split <;> simp only [] <;> omega
  · decide!

/-- Witness of C1: the 3-wide buffer with two rows, cursor at `(2, 0)`, where
the write wraps to `(0, 1)`. -/
theorem C1_PutChar_amended_witness :
    (∃ b1, Buffer.PutChar ⟨3, 2, NewCursor 2 0, List.replicate 6 none, 0, 0⟩ 65 = some b1 ∧
      b1.Tiles[((0 : Int) * 3 + 2).toNat]? =
        some (some { Char := 65, Color := 7, Background := 0, Attrib := 0, Font := 0 }) ∧
      (∀ i : Nat, i < 6 → i ≠ ((0 : Int) * 3 + 2).toNat →
        b1.Tiles[i]? = (List.replicate 6 (none : Option Tile))[i]?) ∧
      ((2 : Int) + 1 < 3 → b1.Cursor.X = 2 + 1 ∧ b1.Cursor.Y = 0) ∧
      (¬ (2 : Int) + 1 < 3 → b1.Cursor.X = 0 ∧ b1.Cursor.Y = 0 + 1) ∧
      b1.Cursor.X < 3) :=
  (C1_PutChar_amended ⟨3, 2, NewCursor 2 0, List.replicate 6 none, 0, 0⟩ 65
    (by decide) (by decide) (by decide) (by decide) (by decide)).1

/-! ## C2: the escape fallback -/

/-- C2, at the failing input: on the 80x25 emulator the three bytes
ESC `A` `B` write the four tiles ESC, `A`, ESC, `B`, and the state is still
`STATE_ANSI_WAIT_BRACE`: the fallback branch writes its two tiles and leaves
`state` as it was, so the claim's return to TEXT does not happen. -/
theorem C2_escape_fallback_failing_input :
    (runBytes 80 25 [0x1B, 65, 66]).map (fun m =>
        (m.state, (m.p.buffer.Tiles.take 5).map (Option.map Tile.Char))) =
      some (STATE_ANSI_WAIT_BRACE, [some 0x1B, some 65, some 0x1B, some 66, none]) := by
  decide!

/-! ## C3: the default of the cursor motions -/

/-- C3, at the failing inputs: on the 80x25 emulator ESC `[` `C` and
ESC `[` `B` leave the cursor at `(0, 0)`, and after `AB` (cursor `(2, 0)`)
ESC `[` `D` leaves it at `(2, 0)` and ESC `[` `E` at `(0, 0)`: the `Flush`
before the dispatch makes `s.Len()` 1, the handler reads `s.Int(0) = 0` and
moves by 0, where the claim has a move by 1. -/
theorem C3_motion_default_failing_input :
    (runBytes 80 25 [0x1B, 91, 67]).map
        (fun m => (m.p.buffer.Cursor.X, m.p.buffer.Cursor.Y)) = some (0, 0) ∧
    (runBytes 80 25 [0x1B, 91, 66]).map
        (fun m => (m.p.buffer.Cursor.X, m.p.buffer.Cursor.Y)) = some (0, 0) ∧
    (runBytes 80 25 [65, 66, 0x1B, 91, 68]).map
        (fun m => (m.p.buffer.Cursor.X, m.p.buffer.Cursor.Y)) = some (2, 0) ∧
    (runBytes 80 25 [65, 66, 0x1B, 91, 69]).map
        (fun m => (m.p.buffer.Cursor.X, m.p.buffer.Cursor.Y)) = some (0, 0) := by
  decide!

/-! ## C4: Parse and the bounds of the tile sequence -/

/-- C4, at the failing input: on the 80x25 emulator the input
ESC `[26H` ESC `[1J` makes `Parse` panic: the cursor is at offset 2000, the
length of the tile sequence, and `ClearTo` starts its loop at
`MinInt(o, len)`, indexing `b.Tiles[len]`. -/
theorem C4_Parse_panics_failing_input :
    parseBytes 80 25 [0x1B, 91, 50, 54, 72, 0x1B, 91, 49, 74] = none := by
  decide!

/-! ## C5: SUB ends the parse -/

/-- C5: when the loop of `Parse` is in `STATE_TEXT` after the bytes `p`, then
`Parse` on `p ++ [SUB] ++ q` returns the same as `Parse` on `p`: it returns
(no panic), the error is nil, and the emulator (tiles, cursor position and
rendition, maxWidth, maxHeight) is the one reached after `p`. -/
theorem C5_SUB_terminates_parsing (e : ANSI) (p q : List Nat) (m : Machine)
    (hrun : run (Machine.init e) p = some m) (htext : m.state = STATE_TEXT) :
    e.Parse (p ++ [SUB] ++ q) = e.Parse p ∧ e.Parse p = some (m.p, false) := by
  have h1 : run (Machine.init e) (p ++ [SUB] ++ q) = some { m with state := STATE_EXIT } := by
    rw [List.append_assoc, run_append, hrun, Option.some_bind]
    have hne : m.state ≠ STATE_EXIT := by rw [htext]; decide
    simp only [List.singleton_append, run, hne, if_false, step_SUB m htext, Option.some_bind]
    exact run_exit _ _ rfl
  unfold ANSI.Parse feed
  rw [h1, hrun]
  exact ⟨rfl, rfl⟩

/-- Witness of C5: a 3x2 emulator, `p = "A"`, `q = "B"`. -/
theorem C5_SUB_terminates_parsing_witness :
    ANSI.Parse ⟨⟨3, 2, NewCursor 0 0, List.replicate 6 none, 0, 0⟩⟩ ([65] ++ [SUB] ++ [66]) =
      ANSI.Parse ⟨⟨3, 2, NewCursor 0 0, List.replicate 6 none, 0, 0⟩⟩ [65] ∧
    ANSI.Parse ⟨⟨3, 2, NewCursor 0 0, List.replicate 6 none, 0, 0⟩⟩ [65] =
      some (⟨⟨3, 2, ⟨1, 0, { NewTile with Char := 65 }⟩,
        [some { NewTile with Char := 65 }, none, none, none, none, none], 1, 0⟩⟩, false) :=
  C5_SUB_terminates_parsing ⟨⟨3, 2, NewCursor 0 0, List.replicate 6 none, 0, 0⟩⟩ [65] [66]
    ⟨STATE_TEXT, NewANSISequence, ⟨⟨3, 2, ⟨1, 0, { NewTile with Char := 65 }⟩,
        [some { NewTile with Char := 65 }, none, none, none, none, none], 1, 0⟩⟩⟩
    (by decide) (by decide)

/-! ## C6: CUU -/

/-- C6, at the failing input: on the 80x25 emulator, after NL (cursor
`(0, 1)`) the sequence ESC `[1A` leaves the cursor at `(0, 1)`: `parseCUU` has
an empty body, where the claim has the cursor at `(0, 0)`. -/
theorem C6_CUU_failing_input :
    (runBytes 80 25 [10, 0x1B, 91, 49, 65]).map (fun m =>
      (m.state, m.p.buffer.Cursor.X, m.p.buffer.Cursor.Y)) = some (STATE_TEXT, 0, 1) := by
  decide!

/-! ## C7: EL mode 0 -/

/-- C7, at the failing input: on the 80x25 emulator ESC `[1;80H` `A` writes
`A` in the last column of row 0 (offset 79); after ESC `[1;1H` ESC `[0K`
(cursor `(0, 0)`, EL mode 0) offset 79 still holds `A`: the loop of `parseEL`
runs while `i < e` with `e = width*(y+1) - 1`, so the last column is not
cleared, where the claim has the inclusive range. -/
theorem C7_EL0_last_column_failing_input :
    (runBytes 80 25 [0x1B, 91, 49, 59, 56, 48, 72, 65, 0x1B, 91, 49, 59, 49, 72,
        0x1B, 91, 48, 75]).map
      (fun m => (m.p.buffer.Cursor.X, m.p.buffer.Cursor.Y,
        (m.p.buffer.Tiles.getD 79 none).map Tile.Char)) =
      some (0, 0, some 65) := by
  decide!

/-! ## C8: TAB -/

/-- C8, counterexample to the claim as stated: on the 80x25 emulator a TAB at
column 0 leaves the cursor at column 7, and 7 is not a multiple of 8 (the
smallest multiple of 8 greater than 0 is 8). -/
theorem C8_TAB_counterexample :
    (runBytes 80 25 [TAB]).map (fun m => (m.p.buffer.Cursor.X, m.p.buffer.Cursor.Y)) =
      some (7, 0) ∧ (7 : Int) % 8 ≠ 0 := by
  decide!

/-- C8, amended: in `STATE_TEXT`, with the cursor at `(x, y)`, `0 ≤ x`, `0 ≤ y`,
room on the line (`x + 7 - x % 8 < width`, so no write wraps) and offsets that
are Go ints (`y*width + x + 7 - x % 8 < 2^63`), a TAB byte is processed
without panic, the state stays `STATE_TEXT`, the cursor column
becomes `x' = x + 7 - x % 8`, which is the smallest column `≥ x` with `x' + 1`
a multiple of 8, the row is unchanged, and every cell of the row in the
columns `x .. x'-1` holds a space with the color, background, attrib and font
of the cursor template. -/
theorem C8_TAB_amended (m : Machine) (htext : m.state = STATE_TEXT)
    (hw : 0 < m.p.buffer.Width) (hx : 0 ≤ m.p.buffer.Cursor.X) (hy : 0 ≤ m.p.buffer.Cursor.Y)
    (hroom : m.p.buffer.Cursor.X + 7 - m.p.buffer.Cursor.X % 8 < m.p.buffer.Width)
    (hrange : m.p.buffer.Cursor.Y * m.p.buffer.Width +
      (m.p.buffer.Cursor.X + 7 - m.p.buffer.Cursor.X % 8) < 9223372036854775808) :
    ∃ m1, run m [TAB] = some m1 ∧ m1.state = STATE_TEXT ∧
      m1.p.buffer.Cursor.X = m.p.buffer.Cursor.X + 7 - m.p.buffer.Cursor.X % 8 ∧
      (m1.p.buffer.Cursor.X + 1) % 8 = 0 ∧
      m.p.buffer.Cursor.X ≤ m1.p.buffer.Cursor.X ∧
      (∀ c : Int, m.p.buffer.Cursor.X ≤ c → (c + 1) % 8 = 0 → m1.p.buffer.Cursor.X ≤ c) ∧
      m1.p.buffer.Cursor.Y = m.p.buffer.Cursor.Y ∧
      (∀ c : Int, m.p.buffer.Cursor.X ≤ c → c < m1.p.buffer.Cursor.X →
        m1.p.buffer.Tiles[(m.p.buffer.Cursor.Y * m.p.buffer.Width + c).toNat]? =
          some (some { Char := 32, Color := m.p.buffer.Cursor.Tile.Color,
                       Background := m.p.buffer.Cursor.Tile.Background,
                       Attrib := m.p.buffer.Cursor.Tile.Attrib,
                       Font := m.p.buffer.Cursor.Tile.Font })) := by
  have hne : m.state ≠ STATE_EXIT := by rw [htext]; decide
  rw [run_single m TAB hne]
  unfold step
  rw [htext]
  have e1 : ¬ (TAB = SUB) := by decide
  have e2 : ¬ (TAB = ESC) := by decide
  have e3 : ¬ (TAB = NL) := by decide
  have e4 : ¬ (TAB = CR) := by decide
  have hmod : Int.tmod (m.p.buffer.Cursor.X + 1) ANSI_TABSTOP = (m.p.buffer.Cursor.X + 1) % 8 := by
    unfold ANSI_TABSTOP
    rw [Int.tmod_eq_emod] <;> omega
  simp only [e1, e2, e3, e4, if_false, if_true, hmod]
  by_cases hc : (m.p.buffer.Cursor.X + 1) % 8 > 0
  · simp only [hc, if_true]
    have hyw : 0 ≤ m.p.buffer.Cursor.Y * m.p.buffer.Width := mul_nonneg hy (le_of_lt hw)
    obtain ⟨b1, h1, h2, h3, h4, h5, h6, h7, h8, h9⟩ := tabLoop_spec
      (ANSI_TABSTOP - (m.p.buffer.Cursor.X + 1) % 8).toNat m.p.buffer hw hx hy
      (by left; unfold ANSI_TABSTOP; omega) (by unfold ANSI_TABSTOP; omega)
    have hn : ((ANSI_TABSTOP - (m.p.buffer.Cursor.X + 1) % 8).toNat : Int) =
        7 - m.p.buffer.Cursor.X % 8 := by unfold ANSI_TABSTOP; omega
    rw [h1]
    refine ⟨m.withBuffer b1, rfl, htext, ?_, ?_, ?_, ?_, h5, ?_⟩
    · show b1.Cursor.X = _
      rw [h4, hn]; ring
    · show (b1.Cursor.X + 1) % 8 = 0
      rw [h4, hn]; omega
    · show _ ≤ b1.Cursor.X
      rw [h4, hn]; omega
    · intro c hc1 hc2
      show b1.Cursor.X ≤ c
      rw [h4, hn]; omega
    · intro c hc1 hc2
      change c < b1.Cursor.X at hc2
      rw [h4, hn] at hc2
      have := h8 (c - m.p.buffer.Cursor.X).toNat (by unfold ANSI_TABSTOP; omega)
      have hidx : (m.p.buffer.Cursor.Y * m.p.buffer.Width + m.p.buffer.Cursor.X).toNat +
          (c - m.p.buffer.Cursor.X).toNat =
          (m.p.buffer.Cursor.Y * m.p.buffer.Width + c).toNat := by omega
      rw [hidx] at this
      exact this
  · simp only [hc, if_false]
    refine ⟨m, rfl, htext, ?_, ?_, le_refl _, ?_, rfl, ?_⟩
    · omega
    · omega
    · intro c hc1 _; exact hc1
    · intro c hc1 hc2; omega


/-- Witness of C8: the 10x2 emulator at the entry of `Parse`, cursor `(0, 0)`. -/
theorem C8_TAB_amended_witness :
    ∃ m1, run smallMachine [TAB] = some m1 ∧ m1.state = STATE_TEXT ∧
      m1.p.buffer.Cursor.X = smallMachine.p.buffer.Cursor.X + 7 - smallMachine.p.buffer.Cursor.X % 8 ∧
      (m1.p.buffer.Cursor.X + 1) % 8 = 0 ∧
      smallMachine.p.buffer.Cursor.X ≤ m1.p.buffer.Cursor.X ∧
      (∀ c : Int, smallMachine.p.buffer.Cursor.X ≤ c → (c + 1) % 8 = 0 → m1.p.buffer.Cursor.X ≤ c) ∧
      m1.p.buffer.Cursor.Y = smallMachine.p.buffer.Cursor.Y ∧
      (∀ c : Int, smallMachine.p.buffer.Cursor.X ≤ c → c < m1.p.buffer.Cursor.X →
        m1.p.buffer.Tiles[(smallMachine.p.buffer.Cursor.Y * smallMachine.p.buffer.Width + c).toNat]? =
          some (some { Char := 32, Color := smallMachine.p.buffer.Cursor.Tile.Color,
                       Background := smallMachine.p.buffer.Cursor.Tile.Background,
                       Attrib := smallMachine.p.buffer.Cursor.Tile.Attrib,
                       Font := smallMachine.p.buffer.Cursor.Tile.Font })) :=
  C8_TAB_amended smallMachine rfl (by decide) (by decide) (by decide) (by decide) (by decide)

/-! ## C9: CUP and HVP -/

/-- C9, counterexample to the claim as stated: on the 80x25 emulator the
sequence ESC `[` 9223372036854775808 `;` 1 `H` (row `2^63`) leaves the cursor
at row `2^63 - 2`, not at `row - 1 = 2^63 - 1`: `Atoi` answers a numeral beyond
the int range with the largest int, and `Int` drops its error. -/
theorem C9_CUP_counterexample :
    (runBytes 80 25 ([ESC, 91] ++ decimal 9223372036854775808 ++ [59] ++ decimal 1 ++ [72])).map
        (fun m => (m.p.buffer.Cursor.X, m.p.buffer.Cursor.Y)) =
      some (0, 9223372036854775806) ∧
    (9223372036854775806 : Int) ≠ ((9223372036854775808 : Nat) : Int) - 1 := by
  decide!

/-- C9, amended: from `STATE_TEXT` (sequence accumulator empty), for all
`1 ≤ row < 2^63` and `1 ≤ col < 2^63` and the final byte `H` or `f`,
ESC `[` row `;` col final leaves the cursor at `(col-1, row-1)`, ESC `[` row
final at `(0, row-1)` and ESC `[` final at `(0, 0)`; in each case the machine
is back in `STATE_TEXT` with the accumulator empty and nothing else of the
buffer changes (the tile grid in particular), and the result does not depend
on which of `H`, `f` ends the sequence.  On the 80x25 emulator ESC `[5;10H`
`Z` writes `Z` at offset `4*80 + 9` and leaves the cursor at `(10, 4)`. -/
theorem C9_CUP_HVP_amended (m : Machine) (htext : m.state = STATE_TEXT)
    (hseq : m.seq = NewANSISequence) (row col : Nat) (hr : 1 ≤ row) (hc : 1 ≤ col)
    (hr2 : row < 9223372036854775808) (hc2 : col < 9223372036854775808)
    (f : Nat) (hf : f = 72 ∨ f = 102) :
    run m ([ESC, 91] ++ decimal row ++ [59] ++ decimal col ++ [f]) =
      some { state := STATE_TEXT, seq := NewANSISequence,
             p := { buffer := { m.p.buffer with
               Cursor := { m.p.buffer.Cursor with X := (col : Int) - 1, Y := (row : Int) - 1 } } } } ∧
    run m ([ESC, 91] ++ decimal row ++ [f]) =
      some { state := STATE_TEXT, seq := NewANSISequence,
             p := { buffer := { m.p.buffer with
               Cursor := { m.p.buffer.Cursor with X := 0, Y := (row : Int) - 1 } } } } ∧
    run m [ESC, 91, f] =
      some { state := STATE_TEXT, seq := NewANSISequence,
             p := { buffer := { m.p.buffer with
               Cursor := { m.p.buffer.Cursor with X := 0, Y := 0 } } } } ∧
    (runBytes 80 25 [ESC, 91, 53, 59, 49, 48, 72, 90]).map (fun m1 =>
        ((m1.p.buffer.Tiles.getD (4 * 80 + 9) none).map Tile.Char,
          m1.p.buffer.Cursor.X, m1.p.buffer.Cursor.Y)) = some (some 90, 10, 4) :=
  ⟨run_CUP_two m htext hseq row col hr hc hr2 hc2 f hf,
   run_CUP_one m htext hseq row hr hr2 f hf,
   run_CUP_none m htext hseq f hf, by decide!⟩

/-- Witness of C9: the 10x2 emulator at the entry of `Parse`, row 2, column 3,
final byte `f`. -/
theorem C9_CUP_HVP_amended_witness :
    run smallMachine ([ESC, 91] ++ decimal 2 ++ [59] ++ decimal 3 ++ [102]) =
      some { state := STATE_TEXT, seq := NewANSISequence,
             p := { buffer := { smallMachine.p.buffer with
               Cursor := { smallMachine.p.buffer.Cursor with
                 X := ((3 : Nat) : Int) - 1, Y := ((2 : Nat) : Int) - 1 } } } } ∧
    run smallMachine ([ESC, 91] ++ decimal 2 ++ [102]) =
      some { state := STATE_TEXT, seq := NewANSISequence,
             p := { buffer := { smallMachine.p.buffer with
               Cursor := { smallMachine.p.buffer.Cursor with
                 X := 0, Y := ((2 : Nat) : Int) - 1 } } } } ∧
    run smallMachine [ESC, 91, 102] =
      some { state := STATE_TEXT, seq := NewANSISequence,
             p := { buffer := { smallMachine.p.buffer with
               Cursor := { smallMachine.p.buffer.Cursor with X := 0, Y := 0 } } } } :=
  have h := C9_CUP_HVP_amended smallMachine rfl rfl 2 3 (by decide) (by decide) (by decide)
    (by decide) 102 (Or.inr rfl)
  ⟨h.1, h.2.1, h.2.2.1⟩

/-! ## C10: ED with a mode other than 0 and 1 -/

/-- C10: when `s.Int(0)` is neither 0 nor 1, `parseED` returns, every slot of
the tile sequence is absent afterwards, and the length of the tile sequence,
the cursor (position and rendition), `maxWidth`, `maxHeight`, `Width` and
`Height` are unchanged; from `STATE_TEXT` the bytes ESC `[2J` do exactly that
and return to `STATE_TEXT`.  On the 80x25 emulator the input `A` ESC `[2J`
space `B` leaves offset 0 absent, a space at `(1, 0)` and `B` at `(2, 0)`. -/
theorem C10_ED_clears_whole_grid (s : ANSISequence) (b : Buffer) (i : Int) (m : Machine)
    (hi : s.Int 0 = some i) (h0 : i ≠ 0) (h1 : i ≠ 1)
    (htext : m.state = STATE_TEXT) (hseq : m.seq = NewANSISequence) :
    (∃ b1, parseED s b = some b1 ∧
      (∀ k : Nat, k < b1.Tiles.length → b1.Tiles[k]? = some none) ∧
      b1.Tiles.length = b.Tiles.length ∧ b1.Cursor = b.Cursor ∧
      b1.maxWidth = b.maxWidth ∧ b1.maxHeight = b.maxHeight ∧
      b1.Width = b.Width ∧ b1.Height = b.Height) ∧
    run m [ESC, 91, 50, 74] =
      some { state := STATE_TEXT, seq := NewANSISequence,
             p := { buffer := { m.p.buffer with
               Tiles := m.p.buffer.Tiles.map (fun _ => none) } } } ∧
    (runBytes 80 25 [65, ESC, 91, 50, 74, 32, 66]).map (fun m1 =>
        ((m1.p.buffer.Tiles.take 4).map (Option.map Tile.Char),
          m1.p.buffer.Cursor.X, m1.p.buffer.Cursor.Y)) =
      some ([none, some 32, some 66, none], 3, 0) := by
  refine ⟨⟨b.Clear, ?_, ?_, ?_, rfl, rfl, rfl, rfl, rfl⟩, ?_, ?_⟩
  · simp only [parseED, hi, Option.some_bind, h0, h1, if_false]
  · intro k hk
    simp only [Buffer.Clear, List.length_map] at hk
    simp only [Buffer.Clear, List.getElem?_map, List.getElem?_eq_getElem hk, Option.map_some']
  · simp only [Buffer.Clear, List.length_map]
  · rw [run_CSI m _ htext, run_cons _ 50 _ (by intro hc; cases hc),
      step_param _ 50 rfl (by decide), Option.some_bind, run_single _ 74 (by intro hc; cases hc)]
    apply step_final _ 74 parseED _ rfl (by decide) rfl
    simp only [hseq, NewANSISequence, ANSISequence.Flush, ANSISequence.Buffer, List.nil_append,
      parseED, ANSISequence.Len, List.length_cons, List.length_nil, ANSISequence.Int]
    norm_num [Atoi, parseDigits, Buffer.Clear]
  · decide!


/-- Witness of C10: the sequence with the one parameter `2`, the buffer of the
10x2 emulator. -/
theorem C10_ED_clears_whole_grid_witness :
    ∃ b1, parseED { s := [[50]], b := [] } smallMachine.p.buffer = some b1 ∧
      (∀ k : Nat, k < b1.Tiles.length → b1.Tiles[k]? = some none) ∧
      b1.Tiles.length = smallMachine.p.buffer.Tiles.length ∧
      b1.Cursor = smallMachine.p.buffer.Cursor ∧
      b1.maxWidth = smallMachine.p.buffer.maxWidth ∧
      b1.maxHeight = smallMachine.p.buffer.maxHeight ∧
      b1.Width = smallMachine.p.buffer.Width ∧ b1.Height = smallMachine.p.buffer.Height :=
  (C10_ED_clears_whole_grid { s := [[50]], b := [] } smallMachine.p.buffer 2 smallMachine
    (by decide) (by decide) (by decide) rfl rfl).1

/-! ## Lemmas for C11 to C20 -/

theorem flag_testBit3 (a : Nat) : a &&& ATTRIB_UNDERLINE ≠ 0 ↔ a.testBit 3 = true := by
  have h := Nat.and_two_pow a 3
  norm_num at h
  unfold ATTRIB_UNDERLINE
  rw [h]
  cases a.testBit 3 <;> simp

theorem flag_testBit4 (a : Nat) : a &&& ATTRIB_UNDERLINE_DOUBLE ≠ 0 ↔ a.testBit 4 = true := by
  have h := Nat.and_two_pow a 4
  norm_num at h
  unfold ATTRIB_UNDERLINE_DOUBLE
  rw [h]
  cases a.testBit 4 <;> simp

theorem setFlag_other (a f i : Nat) (hf : f.testBit i = false) :
    (setFlag a f).testBit i = a.testBit i := by
  unfold setFlag; rw [Nat.testBit_or, hf, Bool.or_false]

theorem clearFlag_other (a f i : Nat) (hf : f.testBit i = false) :
    (clearFlag a f).testBit i = a.testBit i := by
  unfold clearFlag; rw [Nat.testBit_xor, Nat.testBit_and, hf, Bool.and_false, Bool.xor_false]

theorem clearFlag_same (a f i : Nat) (hf : f.testBit i = true) :
    (clearFlag a f).testBit i = false := by
  unfold clearFlag; rw [Nat.testBit_xor, Nat.testBit_and, hf, Bool.and_true, Bool.xor_self]

theorem setFlag_same (a f i : Nat) (hf : f.testBit i = true) :
    (setFlag a f).testBit i = true := by
  unfold setFlag; rw [Nat.testBit_or, hf, Bool.or_true]

theorem bitsOK_ite (c : Cursor) (p : Prop) [Decidable p] (x y : Cursor)
    (hx : bitsOK c x) (hy : bitsOK c y) : bitsOK c (if p then x else y) := by
  split
  · exact hx
  · exact hy

theorem sgrStep_bits (c : Cursor) (n : Int) : bitsOK c (sgrStep c n) := by
  unfold sgrStep
  repeat' (with_reducible apply bitsOK_ite)
  all_goals
    first
      | exact Or.inl ⟨rfl, rfl⟩
      | exact Or.inl ⟨setFlag_other _ _ _ (by decide), setFlag_other _ _ _ (by decide)⟩
      | exact Or.inl ⟨clearFlag_other _ _ _ (by decide), clearFlag_other _ _ _ (by decide)⟩
      | exact Or.inr (Or.inl (show Nat.testBit 0 3 = false by decide))
      | exact Or.inr (Or.inl (clearFlag_same _ _ _ (by decide)))
      | exact Or.inr (Or.inr (clearFlag_same _ _ _ (by decide)))
      | exact Or.inr (Or.inl ((setFlag_other _ _ _ (by decide)).trans (clearFlag_same _ _ _ (by decide))))
      | exact Or.inr (Or.inr ((setFlag_other _ _ _ (by decide)).trans (clearFlag_same _ _ _ (by decide))))
      | exact Or.inl ⟨(clearFlag_other _ _ _ (by decide)).trans (clearFlag_other _ _ _ (by decide)),
          (clearFlag_other _ _ _ (by decide)).trans (clearFlag_other _ _ _ (by decide))⟩
      | exact Or.inl ⟨(clearFlag_other _ _ _ (by decide)).trans ((clearFlag_other _ _ _ (by decide)).trans
            ((clearFlag_other _ _ _ (by decide)).trans ((clearFlag_other _ _ _ (by decide)).trans
              (clearFlag_other _ _ _ (by decide))))),
          (clearFlag_other _ _ _ (by decide)).trans ((clearFlag_other _ _ _ (by decide)).trans
            ((clearFlag_other _ _ _ (by decide)).trans ((clearFlag_other _ _ _ (by decide)).trans
              (clearFlag_other _ _ _ (by decide)))))⟩

theorem run_nonalpha (ds : List Nat) : ∀ m : Machine, m.state = STATE_ANSI_WAIT_LITERAL →
    (∀ c ∈ ds, isAlpha c = false) →
    ∃ q, run m ds = some { state := STATE_ANSI_WAIT_LITERAL, seq := q, p := m.p } := by
  induction ds with
  | nil =>
    intro m h _
    refine ⟨m.seq, ?_⟩
    simp only [run]
    rw [← h]
  | cons c cs ih =>
    intro m h hd
    have hne : m.state ≠ STATE_EXIT := by rw [h]; decide
    have hc : isAlpha c = false := hd c (List.mem_cons_self _ _)
    have hstep : ∃ q, step m c = some { state := STATE_ANSI_WAIT_LITERAL, seq := q, p := m.p } := by
      unfold step
      rw [h]
      by_cases h59 : c = 59
      · exact ⟨m.seq.Flush, by simp only [h59, if_true]⟩
      · exact ⟨m.seq.Buffer c, by
          simp only [h59, hc, if_false, Bool.false_eq_true]⟩
    obtain ⟨q, hq⟩ := hstep
    rw [run_cons m c cs hne, hq, Option.some_bind]
    exact ih { state := STATE_ANSI_WAIT_LITERAL, seq := q, p := m.p } rfl
      (fun x hx => hd x (List.mem_cons_of_mem _ hx))

theorem step_unknown (m : Machine) (f : Nat) (h : m.state = STATE_ANSI_WAIT_LITERAL)
    (hf : isAlpha f = true) (hop : opcode f = none) :
    step m f = some { state := STATE_TEXT, seq := NewANSISequence, p := m.p } := by
  unfold step
  rw [h]
  have e1 : ¬ (f = 59) := by
    intro hc; rw [hc] at hf; exact absurd hf (by decide)
  simp only [e1, hf, if_false, if_true, hop]
  rfl

theorem parseDigits_bad (ds : List Nat) : ∀ a : Nat,
    ds.all (fun d => decide (48 ≤ d ∧ d ≤ 57)) = false →
    parseDigits ds a = (0, some NumError.ErrSyntax) ∨
    parseDigits ds a = (18446744073709551615, some NumError.ErrRange) := by
  induction ds with
  | nil => intro a h; simp at h
  | cons c cs ih =>
    intro a h
    by_cases hc : 48 ≤ c ∧ c ≤ 57
    · have hcs : cs.all (fun d => decide (48 ≤ d ∧ d ≤ 57)) = false := by
        simpa [List.all_cons, hc] using h
      simp only [parseDigits, hc, and_self, if_true]
      split
      · exact Or.inr rfl
      · split
        · exact Or.inr rfl
        · exact ih _ hcs
    · left
      simp only [parseDigits, hc, if_false]

theorem Atoi_not_decimal (p : List Nat) (h : isDecimal p = false) : (Atoi p).2 = false := by
  cases p with
  | nil => rfl
  | cons c cs =>
    simp only [isDecimal, Bool.and_eq_false_iff, Bool.not_eq_false', List.isEmpty_iff] at h
    simp only [Atoi]
    generalize (if c = 43 ∨ c = 45 then cs else c :: cs) = body at h ⊢
    rcases h with h | h
    · simp only [h, if_true]
    · split
      · rfl
      · rcases parseDigits_bad body 0 h with hve | hve
        · rw [hve]
        · rw [hve]
          simp only
          split <;> norm_num

theorem Ints_malformed (s : ANSISequence) (h : ∀ p ∈ s.s, isDecimal p = false) :
    s.Ints = [] := by
  unfold ANSISequence.Ints
  rw [List.filterMap_eq_nil_iff]
  intro p hp
  simp only [Atoi_not_decimal p (h p hp), Bool.false_eq_true, if_false]

theorem foldl_exclusive (ns : List Int) : ∀ c : Cursor,
    ¬ (c.Tile.Attrib.testBit 3 = true ∧ c.Tile.Attrib.testBit 4 = true) →
    ¬ ((ns.foldl sgrStep c).Tile.Attrib.testBit 3 = true ∧
       (ns.foldl sgrStep c).Tile.Attrib.testBit 4 = true) := by
  induction ns with
  | nil => intro c h; exact h
  | cons n ns ih =>
    intro c h
    apply ih
    rcases sgrStep_bits c n with ⟨h3, h4⟩ | h3 | h4
    · rw [h3, h4]; exact h
    · rw [h3]; simp
    · rw [h4]; simp

theorem Insert_eq (b : Buffer) (o n : Int) (hn : 0 ≤ n) (ho : 0 ≤ o) (hl : o ≤ b.lenTiles) :
    b.Insert o n = some { b with Tiles := b.Tiles.take o.toNat ++
      (List.replicate n.toNat none ++ b.Tiles.drop o.toNat) } := by
  unfold Buffer.Insert
  have h : ¬ (n < 0 ∨ o < 0 ∨ o > b.lenTiles) := by omega
  simp only [h, if_false]

theorem parseILLoop_eq (o : Int) (n : Nat) : ∀ b : Buffer, 0 ≤ b.Width → 0 ≤ o →
    o ≤ b.lenTiles →
    parseILLoop b o n = some { b with Tiles := b.Tiles.take o.toNat ++
      (List.replicate (n * b.Width.toNat) none ++ b.Tiles.drop o.toNat) } := by
  induction n with
  | zero =>
    intro b _ _ _
    simp only [parseILLoop, Nat.zero_mul, List.replicate_zero, List.nil_append,
      List.take_append_drop]
  | succ n ih =>
    intro b hw ho hl
    unfold Buffer.lenTiles at hl
    have hlen : (b.Tiles.take o.toNat).length = o.toNat := by
      rw [List.length_take]; omega
    simp only [parseILLoop, Insert_eq b o b.Width hw ho hl, Option.some_bind]
    have hih := ih { b with Tiles := b.Tiles.take o.toNat ++
        (List.replicate b.Width.toNat none ++ b.Tiles.drop o.toNat) } hw ho (by
      simp only [Buffer.lenTiles, List.length_append, List.length_take, List.length_replicate,
        List.length_drop]
      omega)
    rw [hih]
    simp only [List.take_left' hlen, List.drop_left' hlen, List.append_assoc]
    rw [← List.append_assoc (List.replicate (n * b.Width.toNat) none), ← List.replicate_add,
      Nat.succ_mul]

theorem Size_rows (b : Buffer) (y : Int) (hw : 0 < b.Width) (hy0 : 0 ≤ y) (hy : y < b.Size.2)
    (hcap : b.Len ≤ b.lenTiles) : b.Width * y ≤ b.lenTiles := by
  unfold Buffer.Size at hy
  simp only [hw, gt_iff_lt, if_true] at hy
  have hL : (0 : Int) ≤ b.lenTiles := by unfold Buffer.lenTiles; omega
  by_cases h : 0 ≤ b.Len - 1
  · rw [Int.tdiv_eq_ediv h (le_of_lt hw)] at hy
    have h2 : y ≤ (b.Len - 1) / b.Width := by omega
    rw [Int.le_ediv_iff_mul_le hw] at h2
    have : b.Width * y = y * b.Width := mul_comm _ _
    omega
  · have h3 : Int.tdiv (b.Len - 1) b.Width ≤ 0 := by
      have h4 := Int.neg_tdiv (b.Len - 1) b.Width
      have h5 : 0 ≤ Int.tdiv (-(b.Len - 1)) b.Width :=
        Int.tdiv_nonneg (by omega) (le_of_lt hw)
      omega
    have hy1 : y = 0 := by omega
    rw [hy1, mul_zero]
    exact hL

theorem Normalize_inside (b : Buffer) (hx0 : 0 ≤ b.Cursor.X) (hx : b.Cursor.X < b.Size.1)
    (hy0 : 0 ≤ b.Cursor.Y) (hy : b.Cursor.Y < b.Size.2) : b.Normalize = b := by
  unfold Buffer.Normalize Cursor.Normalize
  have h1 : MaxInt 0 (MinInt b.Cursor.X (b.Size.1 - 1)) = b.Cursor.X := by
    rw [MaxInt_eq_max, MinInt_eq_min]; omega
  have h2 : MaxInt 0 (MinInt b.Cursor.Y (b.Size.2 - 1)) = b.Cursor.Y := by
    rw [MaxInt_eq_max, MinInt_eq_min]; omega
  rw [h1, h2]

theorem keeps_refl (b : Buffer) : keeps b b := ⟨rfl, rfl, le_refl _⟩

theorem keeps_trans {a b c : Buffer} (h1 : keeps a b) (h2 : keeps b c) : keeps a c :=
  ⟨h2.1.trans h1.1, h2.2.1.trans h1.2.1, le_trans h1.2.2 h2.2.2⟩

theorem keeps_cursor (b : Buffer) (c : Cursor) : keeps b { b with Cursor := c } :=
  ⟨rfl, rfl, le_refl _⟩

theorem setNil_length (ts ts1 : List (Option Tile)) (o : Int) (h : setNil ts o = some ts1) :
    ts1.length = ts.length := by
  unfold setNil at h
  split at h
  · injection h with h; rw [← h, List.length_set]
  · cases h

theorem PutChar_keeps (b b1 : Buffer) (ch : Nat) (h : b.PutChar ch = some b1) : keeps b b1 := by
  by_cases ho : 0 ≤ b.Cursor.Offset b.Width
  · rw [PutChar_eq b ch ho] at h
    injection h with h
    rw [← h]
    refine ⟨rfl, rfl, ?_⟩
    simp only [List.length_set, List.length_append]
    omega
  · exfalso
    unfold Buffer.PutChar Buffer.Expand Buffer.Tile at h
    simp only [Cursor.Offset, Buffer.lenTiles] at h ho
    generalize intAt b.Width (b.Cursor.Y * b.Width + b.Cursor.X) = o at h ho
    have h1 : ¬ ((b.Tiles.length : Int) ≤ o) := by omega
    have h2 : ¬ (o ≥ (b.Tiles.length : Int)) := by omega
    have h3 : o < 0 := by omega
    simp only [h1, h2, h3, if_false, if_true] at h
    cases h

theorem tabLoop_keeps (n : Nat) : ∀ b b1 : Buffer, tabLoop b n = some b1 → keeps b b1 := by
  induction n with
  | zero => intro b b1 h; simp only [tabLoop] at h; injection h with h; rw [← h]; exact keeps_refl b
  | succ n ih =>
    intro b b1 h
    simp only [tabLoop] at h
    cases hp : b.PutChar 32 with
    | none => rw [hp] at h; cases h
    | some b2 =>
      rw [hp, Option.some_bind] at h
      exact keeps_trans (PutChar_keeps b b2 32 hp) (ih b2 b1 h)

theorem ClearAt_keeps (b b1 : Buffer) (o : Int) (h : b.ClearAt o = some b1) : keeps b b1 := by
  unfold Buffer.ClearAt at h
  split at h
  · cases hs : setNil b.Tiles o with
    | none => rw [hs] at h; cases h
    | some ts =>
      rw [hs] at h
      injection h with h
      rw [← h]
      exact ⟨rfl, rfl, le_of_eq (setNil_length _ _ _ hs).symm⟩
  · injection h with h; rw [← h]; exact keeps_refl b

theorem parseELLoop_keeps (n : Nat) : ∀ (b b1 : Buffer) (i : Int),
    parseELLoop b i n = some b1 → keeps b b1 := by
  induction n with
  | zero => intro b b1 i h; simp only [parseELLoop] at h; injection h with h; rw [← h]; exact keeps_refl b
  | succ n ih =>
    intro b b1 i h
    simp only [parseELLoop] at h
    cases hp : b.ClearAt i with
    | none => rw [hp] at h; cases h
    | some b2 =>
      rw [hp, Option.some_bind] at h
      exact keeps_trans (ClearAt_keeps b b2 i hp) (ih b2 b1 _ h)

theorem ClearFromLoop_length (n : Nat) : ∀ (ts ts1 : List (Option Tile)) (o : Int),
    ClearFromLoop ts o n = some ts1 → ts1.length = ts.length := by
  induction n with
  | zero => intro ts ts1 o h; simp only [ClearFromLoop] at h; injection h with h; rw [h]
  | succ n ih =>
    intro ts ts1 o h
    simp only [ClearFromLoop] at h
    cases hs : setNil ts o with
    | none => rw [hs] at h; cases h
    | some ts2 =>
      rw [hs, Option.some_bind] at h
      rw [ih ts2 ts1 _ h, setNil_length _ _ _ hs]

theorem ClearToLoop_length (n : Nat) : ∀ (ts ts1 : List (Option Tile)),
    ClearToLoop ts n = some ts1 → ts1.length = ts.length := by
  induction n with
  | zero => intro ts ts1 h; simp only [ClearToLoop] at h; exact setNil_length _ _ _ h
  | succ n ih =>
    intro ts ts1 h
    simp only [ClearToLoop] at h
    cases hs : setNil ts ((n : Int) + 1) with
    | none => rw [hs] at h; cases h
    | some ts2 =>
      rw [hs, Option.some_bind] at h
      rw [ih ts2 ts1 h, setNil_length _ _ _ hs]

theorem ClearFrom_keeps (b b1 : Buffer) (o : Int) (h : b.ClearFrom o = some b1) : keeps b b1 := by
  unfold Buffer.ClearFrom at h
  cases hs : ClearFromLoop b.Tiles o (b.lenTiles - o).toNat with
  | none => rw [hs] at h; cases h
  | some ts =>
    rw [hs] at h
    injection h with h
    rw [← h]
    exact ⟨rfl, rfl, le_of_eq (ClearFromLoop_length _ _ _ _ hs).symm⟩

theorem ClearTo_keeps (b b1 : Buffer) (o : Int) (h : b.ClearTo o = some b1) : keeps b b1 := by
  unfold Buffer.ClearTo at h
  simp only at h
  split at h
  · cases hs : ClearToLoop b.Tiles (MinInt o b.lenTiles).toNat with
    | none => rw [hs] at h; cases h
    | some ts =>
      rw [hs] at h
      injection h with h
      rw [← h]
      exact ⟨rfl, rfl, le_of_eq (ClearToLoop_length _ _ _ hs).symm⟩
  · injection h with h; rw [← h]; exact keeps_refl b

theorem Clear_keeps (b : Buffer) : keeps b b.Clear :=
  ⟨rfl, rfl, by simp only [Buffer.Clear, List.length_map, le_refl]⟩

theorem Insert_keeps (b b1 : Buffer) (o n : Int) (h : b.Insert o n = some b1) : keeps b b1 := by
  unfold Buffer.Insert at h
  split at h
  · cases h
  · rename_i hc
    injection h with h
    rw [← h]
    refine ⟨rfl, rfl, ?_⟩
    simp only [List.length_append, List.length_take, List.length_replicate, List.length_drop]
    omega

theorem parseILLoop_keeps (n : Nat) : ∀ (b b1 : Buffer) (o : Int),
    parseILLoop b o n = some b1 → keeps b b1 := by
  induction n with
  | zero => intro b b1 o h; simp only [parseILLoop] at h; injection h with h; rw [← h]; exact keeps_refl b
  | succ n ih =>
    intro b b1 o h
    simp only [parseILLoop] at h
    cases hp : b.Insert o b.Width with
    | none => rw [hp] at h; cases h
    | some b2 =>
      rw [hp, Option.some_bind] at h
      have hk := Insert_keeps b b2 o b.Width hp
      exact keeps_trans hk (ih b2 b1 o h)


theorem ite_some_cases {α : Type} (p : Prop) [Decidable p] (a : α) (rest : Option α) (x : α)
    (h : (if p then some a else rest) = some x) : x = a ∨ rest = some x := by
  split at h
  · injection h with h; exact Or.inl h.symm
  · exact Or.inr h

theorem opcode_cases (f : Nat) (fn : ANSISequence → Buffer → Option Buffer)
    (hop : opcode f = some fn) :
    fn = parseCHA ∨ fn = parseCNL ∨ fn = parseCUB ∨ fn = parseCUD ∨ fn = parseCUF ∨
    fn = parseCUP ∨ fn = parseCUU ∨ fn = parseED ∨ fn = parseEL ∨ fn = parseIL ∨
    fn = parseSGR := by
  unfold opcode at hop
  rcases ite_some_cases _ _ _ _ hop with e | hop
  · exact Or.inl e
  rcases ite_some_cases _ _ _ _ hop with e | hop
  · exact Or.inr (Or.inl e)
  rcases ite_some_cases _ _ _ _ hop with e | hop
  · exact Or.inl e
  rcases ite_some_cases _ _ _ _ hop with e | hop
  · exact Or.inr (Or.inr (Or.inl e))
  rcases ite_some_cases _ _ _ _ hop with e | hop
  · exact Or.inr (Or.inr (Or.inr (Or.inl e)))
  rcases ite_some_cases _ _ _ _ hop with e | hop
  · exact Or.inr (Or.inr (Or.inr (Or.inr (Or.inl e))))
  rcases ite_some_cases _ _ _ _ hop with e | hop
  · exact Or.inr (Or.inr (Or.inr (Or.inr (Or.inr (Or.inl e)))))
  rcases ite_some_cases _ _ _ _ hop with e | hop
  · exact Or.inr (Or.inr (Or.inr (Or.inr (Or.inr (Or.inr (Or.inl e))))))
  rcases ite_some_cases _ _ _ _ hop with e | hop
  · exact Or.inr (Or.inr (Or.inr (Or.inr (Or.inr (Or.inr (Or.inr (Or.inl e)))))))
  rcases ite_some_cases _ _ _ _ hop with e | hop
  · exact Or.inr (Or.inr (Or.inr (Or.inr (Or.inr (Or.inr (Or.inr (Or.inr (Or.inl e))))))))
  rcases ite_some_cases _ _ _ _ hop with e | hop
  · exact Or.inr (Or.inr (Or.inr (Or.inr (Or.inr (Or.inr (Or.inr (Or.inr (Or.inr (Or.inl e)))))))))
  rcases ite_some_cases _ _ _ _ hop with e | hop
  · exact Or.inr (Or.inr (Or.inr (Or.inr (Or.inr (Or.inl e)))))
  rcases ite_some_cases _ _ _ _ hop with e | hop
  · exact Or.inr (Or.inr (Or.inr (Or.inr (Or.inr (Or.inr (Or.inr (Or.inr (Or.inr (Or.inr (e))))))))))
  cases hop

theorem opcode_keeps (f : Nat) (fn : ANSISequence → Buffer → Option Buffer)
    (hop : opcode f = some fn) (s : ANSISequence) (b b1 : Buffer) (h : fn s b = some b1) :
    keeps b b1 := by
  have hcur : ∀ (g : Int → Buffer) (oi : Option Int),
      (∀ i, keeps b (g i)) → oi.map g = some b1 → keeps b b1 := by
    intro g oi hg hm
    cases oi with
    | none => cases hm
    | some i => injection hm with hm; rw [← hm]; exact hg i
  rcases opcode_cases f fn hop with e | e | e | e | e | e | e | e | e | e | e <;> subst e
  · exact hcur _ _ (fun i => keeps_cursor b _) h
  · exact hcur _ _ (fun i => keeps_cursor b _) h
  · exact hcur _ _ (fun i => keeps_cursor b _) h
  · exact hcur _ _ (fun i => keeps_cursor b _) h
  · exact hcur _ _ (fun i => keeps_cursor b _) h
  · -- parseCUP
    unfold parseCUP at h
    split at h
    · cases h0 : s.Int 0 with
      | none => rw [h0] at h; cases h
      | some i0 =>
        rw [h0, Option.some_bind] at h
        exact hcur _ _ (fun i => keeps_cursor b _) h
    · split at h
      · exact hcur _ _ (fun i => keeps_cursor b _) h
      · injection h with h; rw [← h]; exact keeps_cursor b _
  · -- parseCUU
    injection h with h; rw [← h]; exact keeps_refl b
  · -- parseED
    unfold parseED at h
    cases h0 : s.Int 0 with
    | none => rw [h0] at h; cases h
    | some i0 =>
      rw [h0, Option.some_bind] at h
      split at h
      · exact ClearFrom_keeps _ _ _ h
      · split at h
        · exact ClearTo_keeps _ _ _ h
        · injection h with h; rw [← h]; exact Clear_keeps b
  · -- parseEL
    unfold parseEL at h
    cases h0 : s.Int 0 with
    | none => rw [h0] at h; cases h
    | some i0 =>
      rw [h0, Option.some_bind] at h
      exact parseELLoop_keeps _ _ _ _ h
  · -- parseIL
    unfold parseIL at h
    cases h0 : (if s.Len > 0 then s.Int 0 else some 1) with
    | none => rw [h0] at h; cases h
    | some i0 =>
      rw [h0, Option.some_bind] at h
      exact keeps_trans (keeps_cursor b _) (parseILLoop_keeps _ _ _ _ h)
  · -- parseSGR
    injection h with h; rw [← h]; exact keeps_cursor b _

theorem step_keeps (m m1 : Machine) (ch : Nat) (h : step m ch = some m1) :
    keeps m.p.buffer m1.p.buffer := by
  have hmap : ∀ (ob : Option Buffer), (∀ b1, ob = some b1 → keeps m.p.buffer b1) →
      ob.map m.withBuffer = some m1 → keeps m.p.buffer m1.p.buffer := by
    intro ob hk hm
    cases ob with
    | none => cases hm
    | some b1 => injection hm with hm; rw [← hm]; exact hk b1 rfl
  unfold step at h
  split at h
  · -- STATE_TEXT
    split at h
    · injection h with h; rw [← h]; exact keeps_refl _
    · split at h
      · injection h with h; rw [← h]; exact keeps_refl _
      · split at h
        · injection h with h; rw [← h]; exact keeps_cursor _ _
        · split at h
          · injection h with h; rw [← h]; exact keeps_cursor _ _
          · split at h
            · simp only at h
              split at h
              · exact hmap _ (fun b1 hb => tabLoop_keeps _ _ _ hb) h
              · injection h with h; rw [← h]; exact keeps_refl _
            · exact hmap _ (fun b1 hb => PutChar_keeps _ _ _ hb) h
  · -- STATE_ANSI_WAIT_BRACE
    split at h
    · injection h with h; rw [← h]; exact keeps_refl _
    · refine hmap _ (fun b1 hb => ?_) h
      cases hp : m.p.buffer.PutChar ESC with
      | none => rw [hp] at hb; cases hb
      | some b2 =>
        rw [hp, Option.some_bind] at hb
        exact keeps_trans (PutChar_keeps _ _ _ hp) (PutChar_keeps _ _ _ hb)
  · -- STATE_ANSI_WAIT_LITERAL
    split at h
    · injection h with h; rw [← h]; exact keeps_refl _
    · split at h
      · simp only at h
        split at h
        · injection h with h; rw [← h]; exact keeps_refl _
        · rename_i fn hop
          cases hf : fn m.seq.Flush m.p.buffer with
          | none => rw [hf] at h; cases h
          | some b1 =>
            rw [hf] at h
            injection h with h
            rw [← h]
            exact opcode_keeps ch fn hop _ _ _ hf
      · injection h with h; rw [← h]; exact keeps_refl _
  · injection h with h; rw [← h]; exact keeps_refl _

theorem run_keeps (r : List Nat) : ∀ m m1 : Machine, run m r = some m1 →
    keeps m.p.buffer m1.p.buffer := by
  induction r with
  | nil => intro m m1 h; simp only [run] at h; injection h with h; rw [← h]; exact keeps_refl _
  | cons ch rest ih =>
    intro m m1 h
    simp only [run] at h
    split at h
    · injection h with h; rw [← h]; exact keeps_refl _
    · cases hs : step m ch with
      | none => rw [hs] at h; cases h
      | some m2 =>
        rw [hs, Option.some_bind] at h
        exact keeps_trans (step_keeps m m2 ch hs) (ih m2 m1 h)

/-- Every buffer that `Parse` reaches from `NewANSI(w, h)` has its `Width*Height`
slots. -/
theorem runBytes_cap (w h : Int) (r : List Nat) (m : Machine)
    (hrun : runBytes w h r = some m) : m.p.buffer.Len ≤ m.p.buffer.lenTiles := by
  unfold runBytes NewANSI New at hrun
  split at hrun
  · cases hrun
  · rename_i hwh
    simp only [Option.map_some', Option.some_bind] at hrun
    have hk := run_keeps r _ m hrun
    obtain ⟨h1, h2, h3⟩ := hk
    simp only [Machine.init, List.length_replicate] at h1 h2 h3
    unfold Buffer.Len Buffer.lenTiles
    rw [h1, h2]
    omega


/-! ## C11: IL -/

/-- C11: for a buffer of positive width that has its `Width*Height` slots, a
cursor `(x, y)` with `0 ≤ x`, `0 ≤ y` inside the size `Size()` reports, and an
IL sequence with first parameter `n ≥ 1`, `parseIL` returns; afterwards the
tile sequence is the old one up to offset `y*width`, then `n*width` absent
slots, then the old one from `y*width` on: the length grows by `n*width`,
every slot below `y*width` keeps its offset, every old offset `i ≥ y*width`
is found at `i + n*width`, and the cursor, `Width` and `Height` are
unchanged.  On the emulator `NewANSI(4, 3)` the input `ABCDEF` fills row 0 and
the first two columns of row 1 and leaves the cursor at `(2, 1)`; ESC `[2L`
then keeps `ABCD` at the offsets 0 to 3, puts 8 absent slots at the offsets 4
to 11, moves `E` and `F` from the offsets 4 and 5 to 12 and 13, makes the
sequence 20 slots long and leaves the cursor at `(2, 1)`. -/
theorem C11_IL_inserts_blank_lines (s : ANSISequence) (b : Buffer) (n : Int)
    (hlen : 0 < s.Len) (hn : s.Int 0 = some n) (h1 : 1 ≤ n) (hw : 0 < b.Width)
    (hx0 : 0 ≤ b.Cursor.X) (hx : b.Cursor.X < b.Size.1)
    (hy0 : 0 ≤ b.Cursor.Y) (hy : b.Cursor.Y < b.Size.2)
    (hcap : b.Len ≤ b.lenTiles) :
    (∃ b1, parseIL s b = some b1 ∧
      b1.Tiles = b.Tiles.take (b.Cursor.Y * b.Width).toNat ++
        (List.replicate (n * b.Width).toNat none ++
          b.Tiles.drop (b.Cursor.Y * b.Width).toNat) ∧
      b1.Tiles.length = b.Tiles.length + (n * b.Width).toNat ∧
      (∀ i : Nat, i < (b.Cursor.Y * b.Width).toNat → b1.Tiles[i]? = b.Tiles[i]?) ∧
      (∀ i : Nat, (b.Cursor.Y * b.Width).toNat ≤ i →
        b1.Tiles[i + (n * b.Width).toNat]? = b.Tiles[i]?) ∧
      b1.Cursor = b.Cursor ∧ b1.Width = b.Width ∧ b1.Height = b.Height) ∧
    (runBytes 4 3 [65, 66, 67, 68, 69, 70]).map (fun m =>
        (m.p.buffer.Tiles.map (Option.map Tile.Char), m.p.buffer.Cursor.X,
          m.p.buffer.Cursor.Y)) =
      some ([some 65, some 66, some 67, some 68, some 69, some 70,
             none, none, none, none, none, none], 2, 1) ∧
    (runBytes 4 3 [65, 66, 67, 68, 69, 70, 0x1B, 91, 50, 76]).map (fun m =>
        (m.p.buffer.Tiles.map (Option.map Tile.Char), m.p.buffer.Cursor.X,
          m.p.buffer.Cursor.Y)) =
      some ([some 65, some 66, some 67, some 68,
             none, none, none, none, none, none, none, none,
             some 69, some 70, none, none, none, none, none, none], 2, 1) := by
  have ho := Size_rows b b.Cursor.Y hw hy0 hy hcap
  have hyw : 0 ≤ b.Width * b.Cursor.Y := mul_nonneg (le_of_lt hw) hy0
  have hcomm : b.Cursor.Y * b.Width = b.Width * b.Cursor.Y := mul_comm _ _
  have hnw : (n * b.Width).toNat = n.toNat * b.Width.toNat := by
    have h2 : ((n.toNat * b.Width.toNat : Nat) : Int) = n * b.Width := by
      push_cast
      rw [Int.toNat_of_nonneg (by omega), Int.toNat_of_nonneg (le_of_lt hw)]
    have h3 : 0 ≤ n * b.Width := mul_nonneg (by omega) (le_of_lt hw)
    omega
  have hpar : parseIL s b = some { b with Tiles := b.Tiles.take (b.Width * b.Cursor.Y).toNat ++
      (List.replicate (n.toNat * b.Width.toNat) none ++
        b.Tiles.drop (b.Width * b.Cursor.Y).toNat) } := by
    unfold parseIL
    have hl : s.Len > 0 := hlen
    simp only [hl, if_true, hn, Option.some_bind, Normalize_inside b hx0 hx hy0 hy]
    exact parseILLoop_eq _ n.toNat b (le_of_lt hw) hyw ho
  unfold Buffer.lenTiles at ho
  have hlt : (b.Tiles.take (b.Width * b.Cursor.Y).toNat).length = (b.Width * b.Cursor.Y).toNat := by
    rw [List.length_take]; omega
  refine ⟨⟨_, hpar, ?_, ?_, ?_, ?_, rfl, rfl, rfl⟩, by decide!, by decide!⟩
  · simp only [hcomm, hnw]
  · simp only [hnw, List.length_append, List.length_take, List.length_replicate,
      List.length_drop]
    omega
  · intro i hi
    rw [hcomm] at hi
    simp only
    rw [List.getElem?_append_left (by rw [hlt]; exact hi), List.getElem?_take]
    simp only [hi, if_true]
  · intro i hi
    rw [hcomm] at hi
    simp only [hnw]
    rw [List.getElem?_append_right (by rw [hlt]; omega), hlt,
      List.getElem?_append_right (by rw [List.length_replicate]; omega),
      List.length_replicate, List.getElem?_drop]
    congr 1
    omega

/-- Witness of C11: the parameter `2` on the 3x2 buffer `tiledBuffer`, which
`NewANSI(3, 2)` reaches on the input `A` ESC `[1;3H` `BC`, with the cursor at
`(1, 1)`: row 0 (`A`, absent, `B`) stays at the offsets 0 to 2, six absent
slots follow, and row 1 (`C`, absent, absent) moves from the offsets 3 to 5 to
the offsets 9 to 11. -/
theorem C11_IL_inserts_blank_lines_witness :
    (runBytes 3 2 [65, 0x1B, 91, 49, 59, 51, 72, 66, 67]).map (fun m => m.p.buffer) =
      some tiledBuffer ∧
    ∃ b1, parseIL { s := [[50]], b := [] } tiledBuffer = some b1 ∧
      b1.Tiles = [some { NewTile with Char := 65 }, none, some { NewTile with Char := 66 },
                  none, none, none, none, none, none,
                  some { NewTile with Char := 67 }, none, none] ∧
      b1.Tiles.length = 6 + 6 ∧
      (∀ i : Nat, i < 3 → b1.Tiles[i]? = tiledBuffer.Tiles[i]?) ∧
      (∀ i : Nat, 3 ≤ i → b1.Tiles[i + 6]? = tiledBuffer.Tiles[i]?) ∧
      b1.Cursor = tiledBuffer.Cursor ∧ b1.Width = 3 ∧ b1.Height = 2 :=
  ⟨by decide, (C11_IL_inserts_blank_lines { s := [[50]], b := [] } tiledBuffer 2
    (by decide) (by decide) (by decide) (by decide) (by decide) (by decide) (by decide)
    (by decide) (by decide)).1⟩

/-! ## C12: SGR parameters that are not numbers -/

/-- C12, counterexample to the claim as stated: on the 80x25 emulator, after
ESC `[1m` ESC `[m` the attribute set of the cursor template is still
`ATTRIB_BOLD`: the empty parameter is not applied as 0. -/
theorem C12_SGR_malformed_counterexample :
    (runBytes 80 25 [ESC, 91, 49, 109, ESC, 91, 109]).map
        (fun m => (m.p.buffer.Cursor.Tile.Attrib,
          m.p.buffer.Cursor.Tile.Attrib &&& ATTRIB_BOLD)) =
      some (ATTRIB_BOLD, ATTRIB_BOLD) ∧ ATTRIB_BOLD ≠ 0 := by
  decide!

/-- C12, amended: an SGR sequence whose parameters are all empty or not
decimal numbers is skipped: `parseSGR` returns the buffer unchanged, cursor
template included; from `STATE_TEXT` the bytes ESC `[m` leave the whole
machine as it was.  On the 80x25 emulator ESC `[1m` ESC `[m` leaves exactly
BOLD set. -/
theorem C12_SGR_malformed_skipped (s : ANSISequence) (b : Buffer) (m : Machine)
    (hmal : ∀ p ∈ s.s, isDecimal p = false)
    (htext : m.state = STATE_TEXT) (hseq : m.seq = NewANSISequence) :
    parseSGR s b = some b ∧ run m [ESC, 91, 109] = some m ∧
    (runBytes 80 25 [ESC, 91, 49, 109, ESC, 91, 109]).map
        (fun m1 => m1.p.buffer.Cursor.Tile.Attrib) = some ATTRIB_BOLD := by
  refine ⟨?_, ?_, by decide!⟩
  · unfold parseSGR
    rw [Ints_malformed s hmal]
    rfl
  · rw [run_CSI m _ htext, run_single _ 109 (by intro hc; cases hc)]
    have hfn : parseSGR (ANSISequence.Flush m.seq) m.p.buffer = some m.p.buffer := by
      unfold parseSGR
      rw [Ints_malformed _ (by
        intro p hp
        simp only [hseq, NewANSISequence, ANSISequence.Flush, List.nil_append,
          List.mem_singleton] at hp
        rw [hp]; rfl)]
      rfl
    rw [step_final { m with state := STATE_ANSI_WAIT_LITERAL } 109 parseSGR m.p.buffer rfl
      (by decide) rfl hfn]
    cases m with
    | mk st sq p =>
      simp only at htext hseq
      rw [htext, hseq]


/-- Witness of C12: the sequence with the one empty parameter, on the 10x2
emulator at the entry of `Parse`. -/
theorem C12_SGR_malformed_skipped_witness :
    parseSGR { s := [[]], b := [] } smallMachine.p.buffer = some smallMachine.p.buffer ∧
    run smallMachine [ESC, 91, 109] = some smallMachine :=
  have h := C12_SGR_malformed_skipped { s := [[]], b := [] } smallMachine.p.buffer smallMachine
    (by decide) rfl rfl
  ⟨h.1, h.2.1⟩

/-! ## C13: UNDERLINE and UNDERLINE_DOUBLE -/

/-- C13: starting from a fresh cursor, after the first `k` of any list `ns` of
SGR parameters have been applied one at a time (so after every intermediate
step and at the end of the list), the cursor template does not have both
UNDERLINE and UNDERLINE_DOUBLE set. -/
theorem C13_underline_exclusive (ns : List Int) (k : Nat) :
    ¬ (((ns.take k).foldl sgrStep (NewCursor 0 0)).Tile.Attrib &&& ATTRIB_UNDERLINE ≠ 0 ∧
       ((ns.take k).foldl sgrStep (NewCursor 0 0)).Tile.Attrib &&& ATTRIB_UNDERLINE_DOUBLE ≠ 0) := by
  rw [flag_testBit3, flag_testBit4]
  apply foldl_exclusive
  decide

/-! ## C14: SizeMax -/

/-- C14, at the failing inputs: on the 80x25 emulator ESC `[1;80H` `A` writes
`A` at column 79 of row 0 and `SizeMax()` is `(0, 1)`: the cursor has wrapped
to column 0 before `maxWidth` is taken, so the written column 79 is above
`maxWidth`.  And `A` ESC `[H` ESC `[5L` moves the written tile to row 5
(offset 400) while `SizeMax()` stays `(1, 0)`. -/
theorem C14_SizeMax_failing_input :
    (parseBytes 80 25 [ESC, 91, 49, 59, 56, 48, 72, 65]).map (fun r =>
        ((r.1.buffer.Tiles.getD 79 none).map Tile.Char, r.1.buffer.SizeMax)) =
      some (some 65, (0, 1)) ∧
    (parseBytes 80 25 [65, ESC, 91, 72, ESC, 91, 53, 76]).map (fun r =>
        ((r.1.buffer.Tiles.getD (5 * 80) none).map Tile.Char, r.1.buffer.SizeMax)) =
      some (some 65, (1, 0)) := by
  decide!

/-! ## C15: ClearTo -/

/-- C15, at the failing input: on the buffer `New(80, 25)` (2000 slots)
`ClearTo(2000)` and `ClearTo(5000)` panic: the loop starts at
`MinInt(o, len) = 2000` and indexes `b.Tiles[2000]`. -/
theorem C15_ClearTo_failing_input :
    (New 80 25).bind (fun b => b.ClearTo 2000) = none ∧
    (New 80 25).bind (fun b => b.ClearTo 5000) = none := by
  decide!

/-! ## C16: Len -/

/-- C16, at the failing input: `New(80, 25)` followed by `Expand(2000)` has 2001
slots, while `Len()` is 2000 and `Size()` is `(80, 25)`; the same after
`Parse` on ESC `[26H` `A`, whose `PutChar` grows the tile sequence. -/
theorem C16_Len_failing_input :
    (New 80 25).map (fun b =>
        ((b.Expand 2000).Tiles.length, (b.Expand 2000).Len, (b.Expand 2000).Size)) =
      some (2001, 2000, (80, 25)) ∧
    (parseBytes 80 25 [ESC, 91, 50, 54, 72, 65]).map (fun r =>
        (r.1.buffer.Tiles.length, r.1.buffer.Len, r.1.buffer.Size)) =
      some (2001, 2000, (80, 25)) := by
  decide!

/-! ## C17: Int -/

/-- C17, at the failing inputs: on the sequence with the one parameter `5`,
`Int(-1)` panics (the guard is `n < s.Len()` only, then `s.s[-1]`); on the
sequence with the one parameter of twenty digits `9`, `Int(0)` returns
`2^63 - 1`, the value `Atoi` gives with its range error, not 0. -/
theorem C17_Int_failing_input :
    ANSISequence.Int { s := [[53]], b := [] } (-1) = none ∧
    ANSISequence.Int { s := [[57, 57, 57, 57, 57, 57, 57, 57, 57, 57,
                             57, 57, 57, 57, 57, 57, 57, 57, 57, 57]], b := [] } 0 =
      some 9223372036854775807 := by
  decide

/-! ## C18: final bytes without a handler -/

/-- C18: from `STATE_TEXT`, a CSI sequence ESC `[` params final, whose
parameter bytes contain no ASCII letter and whose final byte is an ASCII
letter other than `A B C D E F G H J K L f m`, is processed without panic and
leaves the emulator (tile grid, cursor position and rendition, maxWidth,
maxHeight) unchanged, the sequence accumulator empty and the state
`STATE_TEXT`. -/
theorem C18_unknown_final_ignored (m : Machine) (params : List Nat) (f : Nat) (htext : m.state = STATE_TEXT)
    (hp : ∀ c ∈ params, isAlpha c = false) (hf : isAlpha f = true)
    (hu : f ∉ [65, 66, 67, 68, 69, 70, 71, 72, 74, 75, 76, 102, 109]) :
    run m ([ESC, 91] ++ params ++ [f]) =
      some { state := STATE_TEXT, seq := NewANSISequence, p := m.p } := by
  have e : [ESC, 91] ++ params ++ [f] = ESC :: 91 :: (params ++ [f]) := by
    simp only [List.append_assoc, List.cons_append, List.nil_append]
  obtain ⟨q, hq⟩ := run_nonalpha params { m with state := STATE_ANSI_WAIT_LITERAL } rfl hp
  have hop : opcode f = none := by
    simp only [List.mem_cons, List.mem_singleton, not_or, List.not_mem_nil, not_false_eq_true,
      and_true] at hu
    obtain ⟨h1, h2, h3, h4, h5, h6, h7, h8, h9, h10, h11, h12, h13⟩ := hu
    unfold opcode
    norm_num [h1, h2, h3, h4, h5, h6, h7, h8, h9, h10, h11, h12, h13]
  rw [e, run_CSI m _ htext, run_append, hq, Option.some_bind,
    run_single _ f (by intro hc; cases hc)]
  exact step_unknown _ f rfl hf hop


/-- Witness of C18: ESC `[1;2z` on the 10x2 emulator at the entry of `Parse`. -/
theorem C18_unknown_final_ignored_witness :
    run smallMachine ([ESC, 91] ++ [49, 59, 50] ++ [122]) =
      some { state := STATE_TEXT, seq := NewANSISequence, p := smallMachine.p } :=
  C18_unknown_final_ignored smallMachine [49, 59, 50] 122 rfl (by decide) (by decide)
    (by decide)

/-! ## C19: CP437 -/

/-- C19, at the failing inputs: on the 80x25 emulator the byte 0xDB is stored
in the tile as the byte 0xDB and 0xB0 as 0xB0, not as U+2588 and U+2591: the
default case of `STATE_TEXT` passes the raw byte to `PutChar`, the decoder in
`p.transform` is never applied. -/
theorem C19_CP437_failing_input :
    (parseBytes 80 25 [0xDB]).map (fun r => (r.1.buffer.Tiles.getD 0 none).map Tile.Char) =
      some (some 0xDB) ∧
    (parseBytes 80 25 [0xB0]).map (fun r => (r.1.buffer.Tiles.getD 0 none).map Tile.Char) =
      some (some 0xB0) ∧ (0xDB : Nat) ≠ 0x2588 ∧ (0xB0 : Nat) ≠ 0x2591 := by
  decide!

/-! ## C20: the VGA palette -/

/-- C20, at package initialisation: `VGAPalette` has 496 entries, not 256: the
16 CGA entries, then the 240 zero colours left from `make(Palette, 256)` at
the indices 16..255, then the 216 cube entries in `(r, g, b)` loop order at
256..471 and the 24 gray entries at 472..495, since the cube and the ramp are
appended. -/
theorem C20_VGAPalette_failing_input :
    VGAPaletteExprs.length = 496 ∧
    VGAPaletteExprs.take 16 = (List.range 16).map ColorExpr.cga ∧
    (VGAPaletteExprs.drop 16).take 240 = List.replicate 240 ColorExpr.zero ∧
    (VGAPaletteExprs.drop 256).take 216 =
      (List.range 6).flatMap (fun r => (List.range 6).flatMap (fun g =>
        (List.range 6).map (fun b => ColorExpr.cube r g b))) ∧
    VGAPaletteExprs.drop 472 = (List.range 24).map ColorExpr.gray := by
  decide!

/-! ## Lemmas for C21 -/

theorem Tile_width (b b1 : Buffer) (o : Int) (t : Option Tile) (h : b.Tile o = some (b1, t)) :
    b1.Width = b.Width := by
  unfold Buffer.Tile at h
  split at h
  · injection h with h; injection h with h1 h2; rw [← h1]
  · split at h
    · cases h
    · split at h
      · injection h with h; injection h with h1 h2; rw [← h1]
      · injection h with h; injection h with h1 h2; rw [← h1]

theorem Tile_nonneg (b : Buffer) (o : Int) (ho : 0 ≤ o) : ∃ b1 t, b.Tile o = some (b1, t) := by
  unfold Buffer.Tile
  split
  · exact ⟨_, _, rfl⟩
  · have h2 : ¬ (o < 0) := by omega
    simp only [h2, if_false]
    split
    · exact ⟨_, _, rfl⟩
    · exact ⟨_, _, rfl⟩

theorem StringRowLoop_shape (n : Nat) : ∀ (b : Buffer) (y x : Int) (s : List Nat),
    0 ≤ b.Width → 0 ≤ y → 0 ≤ x →
    ∃ b1 row, StringRowLoop b y x s n = some (b1, s ++ row) ∧ row.length = n ∧
      b1.Width = b.Width := by
  induction n with
  | zero =>
    intro b y x s _ _ _
    exact ⟨b, [], by simp only [StringRowLoop, List.append_nil], rfl, rfl⟩
  | succ n ih =>
    intro b y x s hw hy hx
    have ho : 0 ≤ y * b.Width + x := by
      have := mul_nonneg hy hw
      omega
    obtain ⟨b1, t, ht⟩ := Tile_nonneg b _ ho
    have hw1 := Tile_width b b1 _ t ht
    simp only [StringRowLoop, ht]
    cases t with
    | none =>
      obtain ⟨b2, row, h1, h2, h3⟩ := ih b1 y (x + 1) (s ++ [32]) (by rw [hw1]; exact hw) hy
        (by omega)
      refine ⟨b2, 32 :: row, ?_, by simp only [List.length_cons, h2], by rw [h3, hw1]⟩
      simp only [h1, List.append_assoc, List.singleton_append]
    | some t =>
      obtain ⟨b2, row, h1, h2, h3⟩ := ih b1 y (x + 1) (s ++ [t.Char]) (by rw [hw1]; exact hw) hy
        (by omega)
      refine ⟨b2, t.Char :: row, ?_, by simp only [List.length_cons, h2], by rw [h3, hw1]⟩
      simp only [h1, List.append_assoc, List.singleton_append]

theorem StringLoop_shape (w : Int) (n : Nat) : ∀ (b : Buffer) (y : Int) (s : List Nat),
    0 ≤ b.Width → 0 ≤ y →
    ∃ (b1 : Buffer) (rows : List (List Nat)),
      StringLoop b w y s n = some (b1, s ++ rows.flatMap (fun row => row ++ [10])) ∧
      rows.length = n ∧ ∀ row ∈ rows, row.length = w.toNat := by
  induction n with
  | zero =>
    intro b y s _ _
    exact ⟨b, [], by simp only [StringLoop, List.flatMap_nil, List.append_nil], rfl,
      fun _ h => by cases h⟩
  | succ n ih =>
    intro b y s hw hy
    obtain ⟨b1, row, h1, h2, h3⟩ := StringRowLoop_shape w.toNat b y 0 s hw hy (le_refl 0)
    obtain ⟨b2, rows, h4, h5, h6⟩ := ih b1 (y + 1) (s ++ row ++ [10]) (by rw [h3]; exact hw)
      (by omega)
    refine ⟨b2, row :: rows, ?_, by simp only [List.length_cons, h5], ?_⟩
    · simp only [List.append_assoc] at h4
      simp only [StringLoop, h1, List.flatMap_cons, List.append_assoc, h4]
    · intro r hr
      rcases List.mem_cons.mp hr with h | h
      · rw [h]; exact h2
      · exact h6 r h

theorem step_text (m : Machine) (c : Nat) (h : m.state = STATE_TEXT)
    (hc : c ≠ SUB ∧ c ≠ ESC ∧ c ≠ NL ∧ c ≠ CR ∧ c ≠ TAB) :
    step m c = (m.p.buffer.PutChar c).map m.withBuffer := by
  unfold step
  rw [h]
  simp only [hc.1, hc.2.1, hc.2.2.1, hc.2.2.2.1, hc.2.2.2.2, if_false]

theorem run_text (r : List Nat) : ∀ m : Machine, m.state = STATE_TEXT →
    0 < m.p.buffer.Width → 0 ≤ m.p.buffer.Cursor.X → 0 ≤ m.p.buffer.Cursor.Y →
    m.p.buffer.Cursor.X + r.length < m.p.buffer.Width →
    (-9223372036854775808 ≤ m.p.buffer.Width → m.p.buffer.Width < 9223372036854775808 →
      m.p.buffer.Cursor.Y * m.p.buffer.Width + m.p.buffer.Cursor.X + r.length <
        9223372036854775808) →
    m.p.buffer.maxWidth = m.p.buffer.Cursor.X → m.p.buffer.maxHeight = m.p.buffer.Cursor.Y →
    (∀ c ∈ r, c ≠ SUB ∧ c ≠ ESC ∧ c ≠ NL ∧ c ≠ CR ∧ c ≠ TAB) →
    ∃ m1, run m r = some m1 ∧ m1.state = STATE_TEXT ∧
      m1.p.buffer.Width = m.p.buffer.Width ∧
      m1.p.buffer.Cursor.X = m.p.buffer.Cursor.X + r.length ∧
      m1.p.buffer.Cursor.Y = m.p.buffer.Cursor.Y ∧
      m1.p.buffer.maxWidth = m1.p.buffer.Cursor.X ∧
      m1.p.buffer.maxHeight = m1.p.buffer.Cursor.Y ∧
      (∀ ch, written m1.p.buffer.Cursor ch = written m.p.buffer.Cursor ch) ∧
      m.p.buffer.Tiles.length ≤ m1.p.buffer.Tiles.length ∧
      (∀ (i : Nat) (c : Nat), r[i]? = some c →
        m1.p.buffer.Tiles[(m.p.buffer.Cursor.Y * m.p.buffer.Width + m.p.buffer.Cursor.X).toNat + i]? =
          some (some (written m.p.buffer.Cursor c))) ∧
      (∀ i : Nat, i < (m.p.buffer.Cursor.Y * m.p.buffer.Width + m.p.buffer.Cursor.X).toNat →
        i < m.p.buffer.Tiles.length → m1.p.buffer.Tiles[i]? = m.p.buffer.Tiles[i]?) := by
  induction r with
  | nil =>
    intro m h _ _ _ _ _ hmw hmh _
    refine ⟨m, rfl, h, rfl, by simp, rfl, hmw, hmh, fun _ => rfl, le_refl _, ?_, fun _ _ _ => rfl⟩
    intro i c hic
    simp at hic
  | cons c cs ih =>
    intro m h hw hx hy hroom hrange hmw hmh hr
    have hroom1 : m.p.buffer.Cursor.X + ((cs.length : Int) + 1) < m.p.buffer.Width := by
      simp only [List.length_cons] at hroom; push_cast at hroom; exact hroom
    have hrange1 : -9223372036854775808 ≤ m.p.buffer.Width →
        m.p.buffer.Width < 9223372036854775808 →
        m.p.buffer.Cursor.Y * m.p.buffer.Width + m.p.buffer.Cursor.X + ((cs.length : Int) + 1) <
          9223372036854775808 := by
      simp only [List.length_cons] at hrange; push_cast at hrange; exact hrange
    have hne : m.state ≠ STATE_EXIT := by rw [h]; decide
    have hyw : 0 ≤ m.p.buffer.Cursor.Y * m.p.buffer.Width := mul_nonneg hy (le_of_lt hw)
    have hoe : m.p.buffer.Cursor.Offset m.p.buffer.Width =
        m.p.buffer.Cursor.Y * m.p.buffer.Width + m.p.buffer.Cursor.X := by
      unfold Cursor.Offset
      exact intAt_width _ _ (fun w1 w2 => ⟨by omega, by have := hrange1 w1 w2; omega⟩)
    have hix : intAt m.p.buffer.Width (m.p.buffer.Cursor.X + 1) = m.p.buffer.Cursor.X + 1 :=
      intAt_width _ _ (fun _ w2 => ⟨by omega, by omega⟩)
    have ho : 0 ≤ m.p.buffer.Cursor.Offset m.p.buffer.Width := by rw [hoe]; omega
    obtain ⟨hax, hay⟩ :=
      advanced_nowrap m.p.buffer.Cursor c m.p.buffer.Width hx hy (by omega) hix
    rw [run_cons m c cs hne, step_text m c h (hr c (List.mem_cons_self _ _)),
      PutChar_eq m.p.buffer c ho, Option.map_some', Option.some_bind]
    obtain ⟨m1, h1, h2, h3, h4, h5, h6, h7, h8, h9, h10, h11⟩ := ih
      (m.withBuffer
        { Width := m.p.buffer.Width, Height := m.p.buffer.Height,
          Cursor := advanced m.p.buffer.Cursor c m.p.buffer.Width,
          Tiles := (m.p.buffer.Tiles ++ List.replicate
              ((m.p.buffer.Cursor.Offset m.p.buffer.Width).toNat + 1 - m.p.buffer.Tiles.length)
              none).set
            (m.p.buffer.Cursor.Offset m.p.buffer.Width).toNat (some (written m.p.buffer.Cursor c)),
          maxWidth := MaxInt m.p.buffer.maxWidth (advanced m.p.buffer.Cursor c m.p.buffer.Width).X,
          maxHeight := MaxInt m.p.buffer.maxHeight
            (advanced m.p.buffer.Cursor c m.p.buffer.Width).Y })
      h hw (by simp only [Machine.withBuffer, hax]; omega)
      (by simp only [Machine.withBuffer, hay]; exact hy)
      (by simp only [Machine.withBuffer, hax]; omega)
      (by
        simp only [Machine.withBuffer, hax, hay]
        intro w1 w2
        have := hrange1 w1 w2
        omega)
      (by simp only [Machine.withBuffer, hax, hmw, MaxInt_eq_max]; omega)
      (by simp only [Machine.withBuffer, hay, hmh, MaxInt_eq_max]; omega)
      (fun x hx => hr x (List.mem_cons_of_mem _ hx))
    simp only [Machine.withBuffer, hax, hay, written_advanced, hoe, List.length_set,
      List.length_append, List.length_replicate] at h3 h4 h5 h8 h9 h10 h11
    refine ⟨m1, h1, h2, h3, ?_, h5, h6, h7, h8, by omega, ?_, ?_⟩
    · rw [h4]; simp only [List.length_cons]; push_cast; ring
    · intro i ch hich
      cases i with
      | zero =>
        simp only [List.getElem?_cons_zero, Option.some.injEq] at hich
        rw [Nat.add_zero, h11 _ (by omega) (by omega), ← hich]
        rw [List.getElem?_set_self]
        simp only [List.length_append, List.length_replicate]; omega
      | succ i =>
        simp only [List.getElem?_cons_succ] at hich
        have := h10 i ch hich
        have hidx : (m.p.buffer.Cursor.Y * m.p.buffer.Width + (m.p.buffer.Cursor.X + 1)).toNat + i =
            (m.p.buffer.Cursor.Y * m.p.buffer.Width + m.p.buffer.Cursor.X).toNat + (i + 1) := by
          omega
        rw [← hidx]; exact this
    · intro i hi hlen
      rw [h11 i (by omega) (by omega), List.getElem?_set_ne (by omega),
        List.getElem?_append_left hlen]

/-! ## C21: the plain-text render -/

/-- C21: for an emulator of non-negative width `String()` returns, and the
string is `maxHeight` lines, each of `maxWidth` characters followed by a
newline, so the rows from `maxHeight` on are left out.  For every emulator
`NewANSI(w, h)` with `w > 1`, `h ≥ 0` and every input of `k < w` bytes none of
which is SUB, ESC, NL, CR or TAB, `Parse` returns without error, `SizeMax()`
is `(k, 0)`, the `k` bytes are present as tiles at the offsets `0 .. k-1`
(with the default rendition), and `String()` is the empty string and leaves
the emulator as it is. -/
theorem C21_String_omits_last_row (p : ANSI) (w h : Int) (r : List Nat)
    (hp : 0 ≤ p.buffer.Width) (hw : 1 < w) (hh : 0 ≤ h) (hk : (r.length : Int) < w)
    (hr : ∀ c ∈ r, c ≠ SUB ∧ c ≠ ESC ∧ c ≠ NL ∧ c ≠ CR ∧ c ≠ TAB) :
    (∃ (p1 : ANSI) (rows : List (List Nat)),
      p.String = some (p1, rows.flatMap (fun row => row ++ [10])) ∧
      rows.length = p.buffer.maxHeight.toNat ∧
      ∀ row ∈ rows, row.length = p.buffer.maxWidth.toNat) ∧
    (∃ p1 : ANSI, parseBytes w h r = some (p1, false) ∧
      p1.buffer.SizeMax = ((r.length : Int), 0) ∧
      p1.String = some (p1, []) ∧
      ∀ (i : Nat) (c : Nat), r[i]? = some c →
        p1.buffer.Tiles[i]? =
          some (some { Char := c, Color := 7, Background := 0, Attrib := 0, Font := 0 })) := by
  constructor
  · obtain ⟨b1, rows, h1, h2, h3⟩ := StringLoop_shape p.buffer.SizeMax.1
      p.buffer.SizeMax.2.toNat p.buffer 0 [] hp (le_refl 0)
    refine ⟨{ buffer := b1 }, rows, ?_, h2, h3⟩
    unfold ANSI.String
    rw [h1]
    rfl
  · have hwh : ¬ (w * h < 0) := by
      have := mul_nonneg (show (0 : Int) ≤ w by omega) hh
      omega
    obtain ⟨m1, h1, h2, h3, h4, h5, h6, h7, h8, h9, h10, h11⟩ := run_text r
      (Machine.init { buffer := { Width := w, Height := h, Cursor := NewCursor 0 0,
                                  Tiles := List.replicate (w * h).toNat none,
                                  maxWidth := 0, maxHeight := 0 } })
      rfl (show (0 : Int) < w by omega) (le_refl 0) (le_refl 0)
      (by show (0 : Int) + r.length < w; omega)
      (by
        show -9223372036854775808 ≤ w → w < 9223372036854775808 →
          (0 : Int) * w + 0 + r.length < 9223372036854775808
        intro _ _
        omega)
      rfl rfl hr
    simp only [Machine.init, NewCursor] at h3 h4 h5 h10
    refine ⟨m1.p, ?_, ?_, ?_, ?_⟩
    · simp only [parseBytes, NewANSI, New, hwh, if_false, Option.map_some', Option.some_bind,
        ANSI.Parse, feed, h1]
    · simp only [Buffer.SizeMax, h6, h7, h4, h5, zero_add]
    · unfold ANSI.String
      simp only [Buffer.SizeMax, h7, h5, Int.toNat_zero, StringLoop, Option.map_some']
    · intro i c hic
      have := h10 i c hic
      simp only [zero_mul, zero_add, Int.toNat_zero] at this
      rw [this]
      rfl

/-- Witness of C21: the 10x2 emulator and the input `AB`. -/
theorem C21_String_omits_last_row_witness :
    (∃ (p1 : ANSI) (rows : List (List Nat)),
      smallMachine.p.String = some (p1, rows.flatMap (fun row => row ++ [10])) ∧
      rows.length = smallMachine.p.buffer.maxHeight.toNat ∧
      ∀ row ∈ rows, row.length = smallMachine.p.buffer.maxWidth.toNat) ∧
    (∃ p1 : ANSI, parseBytes 10 2 [65, 66] = some (p1, false) ∧
      p1.buffer.SizeMax = ((([65, 66] : List Nat).length : Int), 0) ∧
      p1.String = some (p1, []) ∧
      ∀ (i : Nat) (c : Nat), ([65, 66] : List Nat)[i]? = some c →
        p1.buffer.Tiles[i]? =
          some (some { Char := c, Color := 7, Background := 0, Attrib := 0, Font := 0 })) :=
  C21_String_omits_last_row smallMachine.p 10 2 [65, 66] (by decide) (by decide) (by decide)
    (by decide) (by decide)

end GoPiece
